import Mathlib

/-!
Verification of the liveshark analysis core against its specification.

The Rust sources are shallowly embedded: bytes are `Nat` values (u8 range in
practice), machine integers are `Nat`, `f64` timestamps are modelled as `ℚ`,
`Result`/`Option` returns are `Except`/`Option`, the `HashMap` containers are
association lists, and `VecDeque` rings are plain lists (push_back appends,
pop_front drops the head).  Rust's stable `sort_by` is modelled with
`List.insertionSort` (a stable sort).
-/

/-! ### DMX state store (`analysis/dmx.rs`) -/

/-- Protocol tag, from `DmxProtocol` in `analysis/dmx.rs`. -/
inductive DmxProtocol
  | artNet
  | sacn
deriving DecidableEq

/-- Key of the DMX state map, from `DmxStateKey` in `analysis/dmx.rs`. -/
structure DmxStateKey where
  uni : Nat
  source_id : String
  protocol : DmxProtocol
deriving DecidableEq

/-- A 512-slot DMX image (`[u8; 512]`), as a function from slot index to byte. -/
def DmxImage : Type := Fin 512 → Nat

/-- The all-zero image `[0u8; 512]`. -/
def zeroImage : DmxImage := fun _ => 0

/-- The state map of `DmxStateStore` (`states: HashMap<DmxStateKey, [u8; 512]>`),
as an association list. -/
def DmxStateStore : Type := List (DmxStateKey × DmxImage)

/-- The in-place slot copy of `apply_partial`:
`len = partial_slots.len().min(512); entry[..len].copy_from_slice(..)`.
Slot `k` takes the partial's byte when `k < len` and keeps the old byte
otherwise (the `if len > 0` guard in the source is redundant). -/
def applyPartialImage (img : DmxImage) (p : List Nat) : DmxImage :=
  fun k => if k.val < min p.length 512 then p.getD k.val 0 else img k

/-- Association-list lookup standing for `HashMap::get`. -/
def lookupImage : DmxStateStore → DmxStateKey → Option DmxImage
  | [], _ => none
  | (k, img) :: rest, key => if k = key then some img else lookupImage rest key

/-- Association-list insert-or-replace standing for the map write performed
through `entry(key)`. -/
def updateStore : DmxStateStore → DmxStateKey → DmxImage → DmxStateStore
  | [], key, img => [(key, img)]
  | (k, i) :: rest, key, img =>
    if k = key then (key, img) :: rest else (k, i) :: updateStore rest key img

/-- `DmxStateStore::apply_partial`: fetch the entry (`or_insert([0u8; 512])`),
overwrite its prefix with the partial, store it back and return the full
image by value. -/
def applyPartialStore (store : DmxStateStore) (key : DmxStateKey) (p : List Nat) :
    DmxImage × DmxStateStore :=
  let img := (lookupImage store key).getD zeroImage
  let img2 := applyPartialImage img p
  (img2, updateStore store key img2)

/-- One step of a call sequence on a fixed key: apply the partial to the
current store and remember the returned image. -/
def applyCallsStep (key : DmxStateKey) (acc : DmxStateStore × Option DmxImage)
    (p : List Nat) : DmxStateStore × Option DmxImage :=
  let r := applyPartialStore acc.1 key p
  (r.2, some r.1)

/-- Run a sequence of `apply_partial` calls on one key, keeping the image
returned by the most recent call (`none` before the first call). -/
def applyCalls (store : DmxStateStore) (key : DmxStateKey) (ps : List (List Nat)) :
    DmxStateStore × Option DmxImage :=
  ps.foldl (applyCallsStep key) (store, none)

/-- Specification-side description of slot `k` after a sequence of partials:
the byte written by the last partial that covers `k`, if any (later updates
take precedence). -/
def lastWrite : List (List Nat) → Fin 512 → Option Nat
  | [], _ => none
  | p :: rest, k =>
    match lastWrite rest k with
    | some v => some v
    | none => if k.val < min p.length 512 then p.get? k.val else none

/-! ### Art-Net decoder (`protocols/artnet/{error,layout,reader,parser}.rs`) -/

/-- Errors of Art-Net parsing and reading.  `tooShort`, `invalidUniverseId`,
`unsupportedOpCode` are from `error.rs`; `invalidLength` is the variant the
parser in `parser.rs` constructs; `invalidDmxLength` is the variant the
reader's `read_dmx_length` constructs. -/
inductive ArtNetError
  | tooShort (needed actual : Nat)
  | invalidLength (length : Nat)
  | invalidUniverseId (value : Nat)
  | unsupportedOpCode (opcode : Nat)
  | invalidDmxLength (len : Nat)
deriving DecidableEq

/-- `layout::ARTNET_ID`, the bytes of `"Art-Net\0"`. -/
def artnetId : List Nat := [65, 114, 116, 45, 78, 101, 116, 0]

/-- `ArtNetReader::require_len`. -/
def ArtNetReader.requireLen (payload : List Nat) (needed : Nat) : Except ArtNetError Unit :=
  if payload.length < needed then .error (.tooShort needed payload.length) else .ok ()

/-- `ArtNetReader::read_slice` on the range `start..stop`
(`payload.get(range)` is `Some` exactly when the range lies inside the
payload). -/
def ArtNetReader.readSlice (payload : List Nat) (start stop : Nat) :
    Except ArtNetError (List Nat) :=
  if start ≤ stop ∧ stop ≤ payload.length then
    .ok ((payload.drop start).take (stop - start))
  else .error (.tooShort stop payload.length)

/-- `ArtNetReader::read_u16_le`. -/
def ArtNetReader.readU16le (payload : List Nat) (start stop : Nat) :
    Except ArtNetError Nat := do
  let bytes ← ArtNetReader.readSlice payload start stop
  if bytes.length ≠ 2 then throw (.tooShort 2 bytes.length)
  else pure (bytes.getD 0 0 + 256 * bytes.getD 1 0)

/-- `ArtNetReader::read_u16_be`. -/
def ArtNetReader.readU16be (payload : List Nat) (start stop : Nat) :
    Except ArtNetError Nat := do
  let bytes ← ArtNetReader.readSlice payload start stop
  if bytes.length ≠ 2 then throw (.tooShort 2 bytes.length)
  else pure (256 * bytes.getD 0 0 + bytes.getD 1 0)

/-- `ArtNetReader::read_u8`. -/
def ArtNetReader.readU8 (payload : List Nat) (offset : Nat) : Except ArtNetError Nat :=
  match payload.get? offset with
  | some v => .ok v
  | none => .error (.tooShort (offset + 1) payload.length)

/-- `ArtNetReader::read_optional_nonzero_u8` (via `common::reader::optional_nonzero_u8`). -/
def ArtNetReader.readOptionalNonzeroU8 (payload : List Nat) (offset : Nat) :
    Except ArtNetError (Option Nat) := do
  let v ← ArtNetReader.readU8 payload offset
  pure (if v = 0 then none else some v)

/-- `ArtNetReader::read_dmx_length`: the validating length reader, rejecting
values outside `2..=512` and odd values. -/
def ArtNetReader.readDmxLength (payload : List Nat) (start stop : Nat) :
    Except ArtNetError Nat := do
  let len ← ArtNetReader.readU16be payload start stop
  if ¬(2 ≤ len ∧ len ≤ 512) ∨ len % 2 ≠ 0 then throw (.invalidDmxLength len)
  else pure len

/-- `ArtNetReader::read_universe_id`: the validating universe reader,
rejecting values above `0x7fff`. -/
def ArtNetReader.readUniverseId (payload : List Nat) (start stop : Nat) :
    Except ArtNetError Nat := do
  let v ← ArtNetReader.readU16le payload start stop
  if v > 0x7fff then throw (.invalidUniverseId v) else pure v

/-- `ArtDmx` from `parser.rs`; `slots` is the 512-byte array as a list. -/
structure ArtDmx where
  uni : Nat
  sequence : Option Nat
  slots : List Nat
deriving DecidableEq

/-- `parse_artdmx` from `parser.rs`, line for line.  `DMX_DATA_OFFSET = 18`
and `DMX_MAX_SLOTS = 512` are modelled from the spec (the given
`artnet/layout.rs` omits them).  The `checked_add` overflow arm cannot fire
on `Nat`.  Note the length test is the parser's own
`length == 0 || length > 512`; the parser does not call `read_dmx_length`
or `read_universe_id`. -/
def parseArtdmx (payload : List Nat) : Except ArtNetError (Option ArtDmx) := do
  let _ ← ArtNetReader.requireLen payload 18
  let signature ← ArtNetReader.readSlice payload 0 8
  if signature ≠ artnetId then
    return none
  let opcode ← ArtNetReader.readU16le payload 8 10
  if opcode ≠ 0x5000 then
    return none
  let sequence ← ArtNetReader.readOptionalNonzeroU8 payload 12
  let universeVal ← ArtNetReader.readU16le payload 14 16
  let length ← ArtNetReader.readU16be payload 16 18
  if length = 0 ∨ length > 512 then
    throw (.invalidLength length)
  let dataLen := length
  let needed := 18 + dataLen
  let _ ← ArtNetReader.requireLen payload needed
  let data ← ArtNetReader.readSlice payload 18 needed
  return some { uni := universeVal, sequence := sequence,
                slots := data ++ List.replicate (512 - dataLen) 0 }

/-- An ArtDMX payload whose big-endian length field is 1 (odd and below 2):
magic, opcode `0x5000`, zero sequence, universe 1, length 1, one data byte. -/
def lengthOnePayload : List Nat :=
  artnetId ++ [0x00, 0x50] ++ [0, 0] ++ [0] ++ [0] ++ [1, 0] ++ [0, 1] ++ [99]

/-- An ArtDMX payload whose little-endian universe field is `0x8000`:
magic, opcode `0x5000`, zero sequence, universe `0x8000`, length 2, two
data bytes. -/
def universeOverflowPayload : List Nat :=
  artnetId ++ [0x00, 0x50] ++ [0, 0] ++ [0] ++ [0] ++ [0x00, 0x80] ++ [0, 2] ++ [7, 8]

/-! ### sACN decoder (`protocols/sacn/{error,layout,reader,parser}.rs`) -/

/-- Errors of sACN parsing and reading, from `sacn/error.rs`. -/
inductive SacnError
  | tooShort (needed actual : Nat)
  | invalidStartCode (value : Nat)
  | invalidPropertyValueCount (count : Nat)
  | invalidDmxLength (length : Nat)
  | invalidAcnPid
  | invalidRootVector (value : Nat)
  | invalidFramingVector (value : Nat)
  | invalidDmpVector (value : Nat)
deriving DecidableEq

/-- `layout::ACN_PID`, the bytes of `"ASC-E1.17\0\0\0"`. -/
def acnPidBytes : List Nat := [65, 83, 67, 45, 69, 49, 46, 49, 55, 0, 0, 0]

/-- `SacnReader::require_len`. -/
def SacnReader.requireLen (payload : List Nat) (needed : Nat) : Except SacnError Unit :=
  if payload.length < needed then .error (.tooShort needed payload.length) else .ok ()

/-- `SacnReader::read_u8`. -/
def SacnReader.readU8 (payload : List Nat) (offset : Nat) : Except SacnError Nat :=
  match payload.get? offset with
  | some v => .ok v
  | none => .error (.tooShort (offset + 1) payload.length)

/-- `SacnReader::read_slice`. -/
def SacnReader.readSlice (payload : List Nat) (start stop : Nat) :
    Except SacnError (List Nat) :=
  if start ≤ stop ∧ stop ≤ payload.length then
    .ok ((payload.drop start).take (stop - start))
  else .error (.tooShort stop payload.length)

/-- `SacnReader::read_u16_be`. -/
def SacnReader.readU16be (payload : List Nat) (start stop : Nat) :
    Except SacnError Nat := do
  let bytes ← SacnReader.readSlice payload start stop
  if bytes.length ≠ 2 then throw (.tooShort 2 bytes.length)
  else pure (256 * bytes.getD 0 0 + bytes.getD 1 0)

/-- `SacnReader::read_u32_be`. -/
def SacnReader.readU32be (payload : List Nat) (start stop : Nat) :
    Except SacnError Nat := do
  let bytes ← SacnReader.readSlice payload start stop
  if bytes.length ≠ 4 then throw (.tooShort 4 bytes.length)
  else pure (16777216 * bytes.getD 0 0 + 65536 * bytes.getD 1 0
             + 256 * bytes.getD 2 0 + bytes.getD 3 0)

/-- One hexadecimal digit, lowercase. -/
def hexDigit (n : Nat) : Char :=
  if n < 10 then Char.ofNat (48 + n) else Char.ofNat (87 + n)

/-- `SacnReader::read_cid_hex`: the 16 CID bytes at `22..38` rendered as a
32-character lowercase hex string. -/
def SacnReader.readCidHex (payload : List Nat) : Except SacnError String := do
  let bytes ← SacnReader.readSlice payload 22 38
  pure (String.mk ((bytes.map (fun b => [hexDigit (b / 16), hexDigit (b % 16)])).flatten))

/-- `SacnReader::read_ascii_string`: decode the bytes, strip trailing NULs,
trim surrounding whitespace.  Bytes are decoded one character per byte
(faithful for the ASCII source names; `String::from_utf8_lossy` differs only
on invalid UTF-8, where both sides yield a non-empty string). -/
def SacnReader.readAsciiString (payload : List Nat) (start stop : Nat) :
    Except SacnError String := do
  let bytes ← SacnReader.readSlice payload start stop
  let chars := bytes.map (fun b => Char.ofNat b)
  let chars := (chars.reverse.dropWhile (fun c => c = Char.ofNat 0)).reverse
  pure (String.mk chars).trim

/-- `SacnReader::read_optional_nonzero_u8`. -/
def SacnReader.readOptionalNonzeroU8 (payload : List Nat) (offset : Nat) :
    Except SacnError (Option Nat) := do
  let v ← SacnReader.readU8 payload offset
  pure (if v = 0 then none else some v)

/-- `SacnReader::read_optional_ascii_string`. -/
def SacnReader.readOptionalAsciiString (payload : List Nat) (start stop : Nat) :
    Except SacnError (Option String) := do
  let value ← SacnReader.readAsciiString payload start stop
  if value = "" then pure none else pure (some value)

/-- Modelled from the spec: `SacnReader::read_start_code` is missing from the
given sources (only its caller in `sacn/parser.rs` is present).  Per the spec
the start code byte at offset 125 must be `0x00`; any other value is the
start-code error (`LS-SACN-START-CODE`), as the parser tests assert. -/
def SacnReader.readStartCode (payload : List Nat) : Except SacnError Unit := do
  let v ← SacnReader.readU8 payload 125
  if v ≠ 0 then throw (.invalidStartCode v) else pure ()

/-- Modelled from the spec: `SacnReader::read_dmx_data_len` is missing from
the given sources (only its caller in `sacn/parser.rs` is present).  Per the
spec the big-endian property-value count at `123..125` must lie in `2..=513`
(`LS-SACN-PROPERTY-COUNT` otherwise) and the slot count is `count - 1`, as
the parser tests assert. -/
def SacnReader.readDmxDataLen (payload : List Nat) : Except SacnError Nat := do
  let count ← SacnReader.readU16be payload 123 125
  if count < 2 ∨ 513 < count then throw (.invalidPropertyValueCount count)
  else pure (count - 1)

/-- `SacnDmx` from `sacn/parser.rs`. -/
structure SacnDmx where
  uni : Nat
  cid : String
  source_name : Option String
  sequence : Option Nat
  slots : List Nat
deriving DecidableEq

/-- `parse_sacn_dmx` from `sacn/parser.rs`, line for line
(`MIN_LEN = DMP_VECTOR_OFFSET + 1 = 118`; the `checked_add` overflow arm
cannot fire on `Nat`). -/
def parseSacnDmx (payload : List Nat) : Except SacnError (Option SacnDmx) := do
  let _ ← SacnReader.requireLen payload 118
  let preamble ← SacnReader.readU16be payload 0 2
  let postamble ← SacnReader.readU16be payload 2 4
  if preamble ≠ 0x0010 ∨ postamble ≠ 0x0000 then
    return none
  let acnPid ← SacnReader.readSlice payload 4 16
  if acnPid ≠ acnPidBytes then
    throw .invalidAcnPid
  let rootVector ← SacnReader.readU32be payload 18 22
  if rootVector ≠ 4 then
    throw (.invalidRootVector rootVector)
  let framingVector ← SacnReader.readU32be payload 40 44
  if framingVector ≠ 2 then
    throw (.invalidFramingVector framingVector)
  let dmpVector ← SacnReader.readU8 payload 117
  if dmpVector ≠ 2 then
    throw (.invalidDmpVector dmpVector)
  let _ ← SacnReader.readStartCode payload
  let universeVal ← SacnReader.readU16be payload 113 115
  let cid ← SacnReader.readCidHex payload
  let sourceName ← SacnReader.readOptionalAsciiString payload 44 108
  let sequence ← SacnReader.readOptionalNonzeroU8 payload 111
  let dataLen ← SacnReader.readDmxDataLen payload
  let slots ←
    if dataLen > 0 then
      SacnReader.readSlice payload 126 (126 + dataLen)
    else
      pure []
  return some { uni := universeVal, cid := cid, source_name := sourceName,
                sequence := sequence, slots := slots }

/-- Byte at index `i`, 0 when out of range (used to state facts about the
byte fields the decoder reads). -/
def byteAt (payload : List Nat) (i : Nat) : Nat := payload.getD i 0

/-- The big-endian 16-bit field at offset `i`. -/
def be16 (payload : List Nat) (i : Nat) : Nat :=
  256 * byteAt payload i + byteAt payload (i + 1)

/-- The big-endian 32-bit field at offset `i`. -/
def be32 (payload : List Nat) (i : Nat) : Nat :=
  16777216 * byteAt payload i + 65536 * byteAt payload (i + 1)
  + 256 * byteAt payload (i + 2) + byteAt payload (i + 3)

/-- A payload with valid sACN preamble, postamble and ACN PID but root
vector 1 instead of `0x00000004` (118 bytes). -/
def badRootVectorPayload : List Nat :=
  [0x00, 0x10, 0x00, 0x00] ++ acnPidBytes ++ [0, 0] ++ [0, 0, 0, 1]
    ++ List.replicate 96 0

/-- A payload with valid preamble, postamble, ACN PID and root vector but
framing vector 9 instead of `0x00000002` (118 bytes). -/
def badFramingVectorPayload : List Nat :=
  [0x00, 0x10, 0x00, 0x00] ++ acnPidBytes ++ [0, 0] ++ [0, 0, 0, 4]
    ++ List.replicate 18 0 ++ [0, 0, 0, 9] ++ List.replicate 74 0

/-! ### Universe aggregator (`analysis/universes.rs`) -/

/-- `UniverseSourceStats` from `analysis/universes.rs`; `f64` timestamps
and jitter values are `ℚ`, the `VecDeque` rings are lists. -/
structure UniverseSourceStats where
  frames : Nat
  loss : Nat
  burst_count : Nat
  max_burst_len : Nat
  current_burst : Nat
  last_seq : Option Nat
  first_ts : Option ℚ
  last_ts : Option ℚ
  prev_iat : Option ℚ
  jitter_sum : ℚ
  jitter_samples : List (ℚ × ℚ)
  frame_samples : List ℚ
  loss_sum : Nat
  loss_samples : List (ℚ × Nat)
  burst_start_samples : List ℚ
  burst_length_samples : List (ℚ × Nat)
deriving DecidableEq

/-- `Default::default()` for `UniverseSourceStats`. -/
def UniverseSourceStats.init : UniverseSourceStats :=
  { frames := 0, loss := 0, burst_count := 0, max_burst_len := 0,
    current_burst := 0, last_seq := none, first_ts := none, last_ts := none,
    prev_iat := none, jitter_sum := 0, jitter_samples := [], frame_samples := [],
    loss_sum := 0, loss_samples := [], burst_start_samples := [],
    burst_length_samples := [] }

/-- Rational addition, written through `mkRat` so that concrete values reduce
inside the kernel (Mathlib's `Rat.add` is sealed); provably equal to `+`
(`qAdd_eq` below). -/
def qAdd (a b : ℚ) : ℚ := mkRat (a.num * b.den + b.num * a.den) (a.den * b.den)

/-- Rational subtraction through `mkRat`; provably equal to `-`
(`qSub_eq` below). -/
def qSub (a b : ℚ) : ℚ := mkRat (a.num * b.den - b.num * a.den) (a.den * b.den)

/-- Rational multiplication through `mkRat`; provably equal to `*`
(`qMul_eq` below). -/
def qMul (a b : ℚ) : ℚ := mkRat (a.num * b.num) (a.den * b.den)

/-- Rational inverse through `Rat.divInt`; provably equal to `Rat.inv`
(`qInv_eq` below). -/
def qInv (a : ℚ) : ℚ := Rat.divInt a.den a.num

/-- Rational division; provably equal to `/` (`qDiv_eq` below). -/
def qDiv (a b : ℚ) : ℚ := qMul a (qInv b)

/-- `f64::abs`, written to reduce on concrete rationals. -/
def ratAbs (q : ℚ) : ℚ := if q < 0 then -q else q

/-- `f64::min`, written to reduce on concrete rationals. -/
def ratMin (a b : ℚ) : ℚ := if a ≤ b then a else b

/-- `f64::max`, written to reduce on concrete rationals. -/
def ratMax (a b : ℚ) : ℚ := if a ≤ b then b else a

/-- `JITTER_WINDOW_S`. -/
def jitterWindowS : ℚ := 10

/-- The eviction loop on the jitter ring: drop front samples older than the
10 s window, subtracting them from the running sum. -/
def pruneJitterSamples (now : ℚ) : List (ℚ × ℚ) → ℚ → List (ℚ × ℚ) × ℚ
  | [], total => ([], total)
  | (ts, v) :: rest, total =>
    if qSub now ts ≤ jitterWindowS then ((ts, v) :: rest, total)
    else pruneJitterSamples now rest (qSub total v)

/-- `prune_frame_samples`. -/
def pruneFrameSamples (now : ℚ) : List ℚ → List ℚ
  | [] => []
  | ts :: rest =>
    if qSub now ts ≤ jitterWindowS then ts :: rest else pruneFrameSamples now rest

/-- `prune_loss_samples` (also maintains the running loss sum, with
`saturating_sub`). -/
def pruneLossSamples (now : ℚ) : List (ℚ × Nat) → Nat → List (ℚ × Nat) × Nat
  | [], total => ([], total)
  | (ts, v) :: rest, total =>
    if qSub now ts ≤ jitterWindowS then ((ts, v) :: rest, total)
    else pruneLossSamples now rest (total - v)

/-- `prune_burst_starts`. -/
def pruneBurstStarts (now : ℚ) : List ℚ → List ℚ
  | [] => []
  | ts :: rest =>
    if qSub now ts ≤ jitterWindowS then ts :: rest else pruneBurstStarts now rest

/-- `prune_burst_lengths`. -/
def pruneBurstLengths (now : ℚ) : List (ℚ × Nat) → List (ℚ × Nat)
  | [] => []
  | (ts, v) :: rest =>
    if qSub now ts ≤ jitterWindowS then (ts, v) :: rest else pruneBurstLengths now rest

/-- The sequence-gap arithmetic of `update_source_stats`:
`expected = last_seq.wrapping_add(1)`, `gap = seq.wrapping_sub(expected)`,
explicit modulo 256. -/
def seqGap (last seq : Nat) : Nat :=
  (seq + 256 - (last + 1) % 256) % 256

/-- The timestamp/jitter part of `update_source_stats` (the body guarded by
`if let (Some(ts), Some(last_ts))`). -/
def updateJitterPart (s : UniverseSourceStats) (ts : ℚ) (lastTs : ℚ) :
    UniverseSourceStats :=
  let iat := qSub ts lastTs
  let s :=
    match s.prev_iat with
    | some prevIat =>
      let diff := ratAbs (qSub iat prevIat)
      let total := qAdd s.jitter_sum diff
      let samples := s.jitter_samples ++ [(ts, diff)]
      let pruned := pruneJitterSamples ts samples total
      { s with jitter_sum := pruned.2, jitter_samples := pruned.1 }
    | none => s
  { s with prev_iat := some iat }

/-- The sequence-loss part of `update_source_stats` (the body guarded by
`if let Some(seq)`), applied when a previous sequence exists. -/
def updateSeqPart (s : UniverseSourceStats) (seq : Nat) (last : Nat) (ts : Option ℚ) :
    UniverseSourceStats :=
  let gap := seqGap last seq
  let s : UniverseSourceStats :=
    if 0 < gap ∧ gap < 128 then
      let s := { s with loss := s.loss + gap }
      let s : UniverseSourceStats :=
        match ts with
        | some t =>
          let total := s.loss_sum + gap
          let samples := s.loss_samples ++ [(t, gap)]
          let pruned := pruneLossSamples t samples total
          { s with loss_sum := pruned.2, loss_samples := pruned.1 }
        | none => s
      let s : UniverseSourceStats :=
        if s.current_burst = 0 then
          let s := { s with burst_count := s.burst_count + 1 }
          match ts with
          | some t =>
            { s with burst_start_samples :=
                pruneBurstStarts t (s.burst_start_samples ++ [t]) }
          | none => s
        else s
      let s : UniverseSourceStats := { s with current_burst := s.current_burst + gap }
      if s.max_burst_len < s.current_burst then
        { s with max_burst_len := s.current_burst }
      else s
    else
      let s : UniverseSourceStats :=
        if 0 < s.current_burst then
          match ts with
          | some t =>
            { s with burst_length_samples :=
                pruneBurstLengths t (s.burst_length_samples ++ [(t, s.current_burst)]) }
          | none => s
        else s
      { s with current_burst := 0 }
  { s with last_seq := some seq }

/-- `update_source_stats` from `analysis/universes.rs`. -/
def updateSourceStats (stats : UniverseSourceStats) (sequence : Option Nat)
    (ts : Option ℚ) : UniverseSourceStats :=
  let s := { stats with frames := stats.frames + 1 }
  let s := if s.first_ts.isNone then { s with first_ts := ts } else s
  let s :=
    match ts with
    | some t => { s with frame_samples := pruneFrameSamples t (s.frame_samples ++ [t]) }
    | none => s
  let s :=
    match ts, s.last_ts with
    | some t, some lastTs => updateJitterPart s t lastTs
    | _, _ => s
  let s := { s with last_ts := ts }
  match sequence with
  | some seq =>
    match s.last_seq with
    | some last => updateSeqPart s seq last ts
    | none => { s with last_seq := some seq }
  | none => s

/-- `frames_in_window`. -/
def framesInWindow (s : UniverseSourceStats) : Nat :=
  if s.frame_samples.isEmpty then s.frames else s.frame_samples.length

/-- `loss_in_window`. -/
def lossInWindow (s : UniverseSourceStats) : Nat :=
  if s.loss_samples.isEmpty then s.loss else s.loss_sum

/-- `burst_count_in_window`. -/
def burstCountInWindow (s : UniverseSourceStats) : Nat :=
  if s.burst_start_samples.isEmpty then s.burst_count
  else s.burst_start_samples.length

/-- `max_burst_len_in_window`. -/
def maxBurstLenInWindow (s : UniverseSourceStats) : Nat :=
  if s.burst_length_samples.isEmpty ∧ s.current_burst = 0 then s.max_burst_len
  else
    (s.burst_length_samples.map Prod.snd).foldl
      (fun m len => if m < len then len else m) s.current_burst

/-- `UniverseMetrics`. -/
structure UniverseMetrics where
  loss_packets : Option Nat
  loss_rate : Option ℚ
  burst_count : Option Nat
  max_burst_len : Option Nat
  jitter_ms : Option ℚ
deriving DecidableEq

/-- The accumulator of the `for stats in per_source.values()` loop in
`compute_metrics`. -/
structure MetricsAcc where
  jitter_sum : ℚ
  jitter_count : Nat
  any_seq : Bool
  total_seq_frames : Nat
  total_seq_loss : Nat
  total_seq_bursts : Nat
  total_seq_max_burst : Nat

/-- One iteration of the `compute_metrics` loop. -/
def metricsStep (acc : MetricsAcc) (s : UniverseSourceStats) : MetricsAcc :=
  let acc :=
    if s.last_seq.isSome then
      let maxBurst := maxBurstLenInWindow s
      { acc with
        any_seq := true,
        total_seq_frames := acc.total_seq_frames + framesInWindow s,
        total_seq_loss := acc.total_seq_loss + lossInWindow s,
        total_seq_bursts := acc.total_seq_bursts + burstCountInWindow s,
        total_seq_max_burst :=
          if acc.total_seq_max_burst < maxBurst then maxBurst
          else acc.total_seq_max_burst }
    else acc
  if s.jitter_samples.isEmpty then acc
  else
    { acc with
      jitter_sum := qAdd acc.jitter_sum (qDiv s.jitter_sum (s.jitter_samples.length : ℚ)),
      jitter_count := acc.jitter_count + 1 }

/-- `compute_metrics` from `analysis/universes.rs`, over the list of
per-source stats values. -/
def computeMetrics (perSource : List UniverseSourceStats) : UniverseMetrics :=
  let acc := perSource.foldl metricsStep
    { jitter_sum := 0, jitter_count := 0, any_seq := false, total_seq_frames := 0,
      total_seq_loss := 0, total_seq_bursts := 0, total_seq_max_burst := 0 }
  let loss_packets :=
    if acc.any_seq ∧ 1 < acc.total_seq_frames then some acc.total_seq_loss else none
  let loss_rate :=
    match loss_packets with
    | some loss =>
      let denom := acc.total_seq_frames + loss
      if 0 < denom then some (qDiv (loss : ℚ) (denom : ℚ)) else none
    | none => none
  let burst_count :=
    if acc.any_seq ∧ 1 < acc.total_seq_frames then some acc.total_seq_bursts else none
  let max_burst_len :=
    if acc.any_seq ∧ 1 < acc.total_seq_frames then some acc.total_seq_max_burst
    else none
  let jitter_ms :=
    if 0 < acc.jitter_count then
      some (qMul (qDiv acc.jitter_sum (acc.jitter_count : ℚ)) 1000)
    else none
  { loss_packets := loss_packets, loss_rate := loss_rate, burst_count := burst_count,
    max_burst_len := max_burst_len, jitter_ms := jitter_ms }

/-- The S2 scenario: one source, sequences `[1,2,5,6,10]` at 1 Hz
(timestamps 0..4), folded through `update_source_stats`. -/
def s2SourceStats : UniverseSourceStats :=
  [((1 : Nat), (0 : ℚ)), (2, 1), (5, 2), (6, 3), (10, 4)].foldl
    (fun s p => updateSourceStats s (some p.1) (some p.2)) UniverseSourceStats.init

/-! ### Conflict detector (`build_conflicts` in `analysis/universes.rs`) -/

/-- `ConflictSummary` (report model in `lib.rs`); the `universe` field is
`uni` (`universe` is a Lean keyword). -/
structure ConflictSummary where
  uni : Nat
  sources : List String
  overlap_duration_s : ℚ
  affected_channels : List Nat
  severity : String
  conflict_score : ℚ
deriving DecidableEq

/-- The per-source overlap of `build_conflicts`:
`(end_a.min(end_b) - start_a.max(start_b)).max(0.0)`. -/
def overlapQ (startA endA startB endB : ℚ) : ℚ :=
  ratMax 0 (qSub (ratMin endA endB) (ratMax startA startB))

/-- The conflict record pushed by `build_conflicts`:
`compute_affected_channels()` returns `[]`, `source_label` is the identity,
severity is the constant `"medium"` and `conflict_score` repeats the
overlap. -/
def conflictRecord (u : Nat) (a b : String) (overlap : ℚ) : ConflictSummary :=
  { uni := u, sources := [a, b], overlap_duration_s := overlap,
    affected_channels := [], severity := "medium", conflict_score := overlap }

/-- The body of the inner pair loop of `build_conflicts`: emit a conflict for
an ordered source pair when both timespans are known (`continue` otherwise)
and the overlap exceeds 1 s. -/
def pairConflict (u : Nat) (x y : String × UniverseSourceStats) :
    Option ConflictSummary :=
  match x.2.first_ts, x.2.last_ts, y.2.first_ts, y.2.last_ts with
  | some startA, some endA, some startB, some endB =>
    let overlap := overlapQ startA endA startB endB
    if 1 < overlap then some (conflictRecord u x.1 y.1 overlap)
    else none
  | _, _, _, _ => none

/-- The double loop `for i in 0..keys.len() { for j in (i+1).. }` over the
sorted key list. -/
def pairLoop (u : Nat) : List (String × UniverseSourceStats) → List ConflictSummary
  | [] => []
  | x :: rest => rest.filterMap (pairConflict u x) ++ pairLoop u rest

/-- Conflicts of one universe: `keys.sort()` (modelled by sorting the
per-source association list by key; the map's keys are distinct) followed by
the pair loop. -/
def conflictsForUniverse (u : Nat) (perSource : List (String × UniverseSourceStats)) :
    List ConflictSummary :=
  pairLoop u (List.insertionSort (fun x y => x.1 ≤ y.1) perSource)

/-- `sources.join(",")`. -/
def joinComma (ss : List String) : String := String.intercalate "," ss

/-- The final comparator of `build_conflicts`:
`universe.cmp(..).then_with(|| sources.join(",").cmp(..))`. -/
def conflictLe (c d : ConflictSummary) : Prop :=
  c.uni < d.uni ∨ (c.uni = d.uni ∧ joinComma c.sources ≤ joinComma d.sources)

instance : DecidableRel conflictLe := fun c d => by
  unfold conflictLe; infer_instance

/-- `build_conflicts` from `analysis/universes.rs`, over the association list
standing for the per-universe stats map (the map iteration produces each
universe once; the trailing sort orders the records).  Rust's stable
`sort_by` is modelled by insertion sort. -/
def buildConflicts (stats : List (Nat × List (String × UniverseSourceStats))) :
    List ConflictSummary :=
  List.insertionSort conflictLe
    (stats.flatMap (fun e => conflictsForUniverse e.1 e.2))

/-- The record predicate used to state the conflict-threshold claim: the
conflict is on universe `u` and names exactly the source pair `[a, b]`. -/
def conflictMatches (u : Nat) (a b : String) (c : ConflictSummary) : Bool :=
  decide (c.uni = u) && decide (c.sources = [a, b])

/-! ### Flow aggregator (`analysis/flows.rs`) -/

/-- `FlowStats` from `analysis/flows.rs`. -/
structure FlowStats where
  packets : Nat
  bytes : Nat
  first_ts : Option ℚ
  last_ts : Option ℚ
  prev_iat : Option ℚ
  iat_count : Nat
  max_iat_ms : Option Nat
  jitter_sum : ℚ
  jitter_samples : List (ℚ × ℚ)
  jitter_peak : Option ℚ
  window_packets : Nat
  window_bytes : Nat
  window_samples : List (ℚ × Nat)
  peak_pps : Option ℚ
  peak_bps : Option ℚ
  peak_window_packets : Nat
  peak_window_bytes : Nat
deriving DecidableEq

/-- `Default::default()` for `FlowStats`. -/
def FlowStats.init : FlowStats :=
  { packets := 0, bytes := 0, first_ts := none, last_ts := none, prev_iat := none,
    iat_count := 0, max_iat_ms := none, jitter_sum := 0, jitter_samples := [],
    jitter_peak := none, window_packets := 0, window_bytes := 0,
    window_samples := [], peak_pps := none, peak_bps := none,
    peak_window_packets := 0, peak_window_bytes := 0 }

/-- `PPS_BPS_WINDOW_S`. -/
def ppsBpsWindowS : ℚ := 1

/-- Rounding of `f64::round` on a non-negative rational (`(iat * 1000.0)
.round() as u64`): round half away from zero. -/
def roundToNat (q : ℚ) : Nat := ((qAdd q (mkRat 1 2)).floor).toNat

/-- The eviction loop of the 1 s rate window in `update_flow_rates`
(`saturating_sub` on the counters). -/
def pruneWindowSamples (now : ℚ) :
    List (ℚ × Nat) → Nat → Nat → List (ℚ × Nat) × Nat × Nat
  | [], packets, bytes => ([], packets, bytes)
  | (ts, b) :: rest, packets, bytes =>
    if qSub now ts ≤ ppsBpsWindowS then ((ts, b) :: rest, packets, bytes)
    else pruneWindowSamples now rest (packets - 1) (bytes - b)

/-- `update_flow_jitter` from `analysis/flows.rs`.  On `ℚ` the
`iat.is_finite()` and `ms.is_finite()` guards are always true. -/
def updateFlowJitter (stats : FlowStats) (ts : Option ℚ) : FlowStats :=
  match ts with
  | none => stats
  | some t =>
    let s := if stats.first_ts.isNone then { stats with first_ts := some t } else stats
    let s :=
      match s.last_ts with
      | some lastTs =>
        let iat := qSub t lastTs
        let s :=
          if 0 ≤ iat then
            let ms := roundToNat (qMul iat 1000)
            let newMax :=
              match s.max_iat_ms with
              | none => ms
              | some prev => max prev ms
            { s with iat_count := s.iat_count + 1, max_iat_ms := some newMax }
          else s
        let s : FlowStats :=
          match s.prev_iat with
          | some prevIat =>
            let diff := ratAbs (qSub iat prevIat)
            let total := qAdd s.jitter_sum diff
            let samples := s.jitter_samples ++ [(t, diff)]
            let pruned := pruneJitterSamples t samples total
            let windowAvg := qDiv pruned.2 (pruned.1.length : ℚ)
            let newPeak :=
              match s.jitter_peak with
              | none => windowAvg
              | some peak => ratMax peak windowAvg
            { s with
                jitter_sum := pruned.2
                jitter_samples := pruned.1
                jitter_peak := some newPeak }
          | none => s
        { s with prev_iat := some iat }
      | none => s
    { s with last_ts := some t }

/-- `update_flow_rates` from `analysis/flows.rs`. -/
def updateFlowRates (stats : FlowStats) (ts : Option ℚ) (bytes : Nat) : FlowStats :=
  match ts with
  | none => stats
  | some t =>
    let s :=
      { stats with
          window_packets := stats.window_packets + 1
          window_bytes := stats.window_bytes + bytes
          window_samples := stats.window_samples ++ [(t, bytes)] }
    let pruned := pruneWindowSamples t s.window_samples s.window_packets s.window_bytes
    let s :=
      { s with
          window_samples := pruned.1
          window_packets := pruned.2.1
          window_bytes := pruned.2.2 }
    let pps := qDiv (s.window_packets : ℚ) ppsBpsWindowS
    let bps := qDiv (s.window_bytes : ℚ) ppsBpsWindowS
    let newPeakPps :=
      match s.peak_pps with
      | none => pps
      | some peak => ratMax peak pps
    let newPeakBps :=
      match s.peak_bps with
      | none => bps
      | some peak => ratMax peak bps
    { s with
      peak_pps := some newPeakPps,
      peak_bps := some newPeakBps,
      peak_window_packets := max s.peak_window_packets s.window_packets,
      peak_window_bytes := max s.peak_window_bytes s.window_bytes }

/-- The per-flow body of `add_flow_stats`: bump the packet/byte counters,
then `update_flow_jitter` and `update_flow_rates`. -/
def addFlowStats (stats : FlowStats) (ts : Option ℚ) (payloadLen : Nat) : FlowStats :=
  let s := { stats with packets := stats.packets + 1, bytes := stats.bytes + payloadLen }
  updateFlowRates (updateFlowJitter s ts) ts payloadLen

/-- The rate/jitter fields of `FlowSummary` (the endpoint/protocol strings of
`build_flow_summaries` are not involved in the rate claims). -/
structure FlowRateFields where
  pps : Option ℚ
  bps : Option ℚ
  iat_jitter_ms : Option ℚ
  max_iat_ms : Option Nat
  pps_peak_1s : Option Nat
  bps_peak_1s : Option Nat
deriving DecidableEq

/-- The per-flow summary construction in `build_flow_summaries`: `max_iat_ms`
gated on `iat_count > 0`, the peak integer counts gated on
`last_ts - first_ts >= PPS_BPS_WINDOW_S`, while `pps`/`bps` are taken from
`peak_pps`/`peak_bps` unconditionally. -/
def buildFlowRateFields (s : FlowStats) : FlowRateFields :=
  let maxIat := if 0 < s.iat_count then s.max_iat_ms else none
  let peaks : Option Nat × Option Nat :=
    match s.first_ts, s.last_ts with
    | some start, some stop =>
      if ppsBpsWindowS ≤ qSub stop start then
        (some s.peak_window_packets, some s.peak_window_bytes)
      else (none, none)
    | _, _ => (none, none)
  { pps := s.peak_pps, bps := s.peak_bps,
    iat_jitter_ms := s.jitter_peak.map (fun v => qMul v 1000),
    max_iat_ms := maxIat, pps_peak_1s := peaks.1, bps_peak_1s := peaks.2 }

/-- A run of packets through one flow entry: each update is the optional
timestamp and the payload length. -/
def runFlowUpdates (updates : List (Option ℚ × Nat)) : FlowStats :=
  updates.foldl (fun s u => addFlowStats s u.1 u.2) FlowStats.init

/-- A flow consisting of one packet of 4 payload bytes at t = 0. -/
def singlePacketFlow : FlowStats := addFlowStats FlowStats.init (some 0) 4

/-! ### Compliance recorder (`record_violation` / `finalize_compliance` in
`analysis/mod.rs`) -/

/-- `Violation` from the report model in `lib.rs`. -/
structure Violation where
  id : String
  severity : String
  message : String
  count : Nat
  examples : List String
deriving DecidableEq

/-- `ComplianceSummary` from the report model in `lib.rs`. -/
structure ComplianceSummary where
  protocol : String
  compliance_percentage : ℚ
  violations : List Violation
deriving DecidableEq

/-- The compliance map `HashMap<String, ComplianceSummary>`, as an
association list with distinct keys (new entries are appended). -/
abbrev ComplianceMap : Type := List (String × ComplianceSummary)

/-- `severity_rank`. -/
def severityRank (s : String) : Nat :=
  if s = "error" then 0 else if s = "warning" then 1 else 2

/-- `str::to_ascii_lowercase`. -/
def toAsciiLower (s : String) : String :=
  String.mk (s.data.map (fun c =>
    if 'A' ≤ c ∧ c ≤ 'Z' then Char.ofNat (c.toNat + 32) else c))

/-- `str::trim`, implemented on the character list so that concrete values
reduce (the library `String.trim` is defined through substring loops). -/
def trimString (s : String) : String :=
  String.mk (((s.data.dropWhile Char.isWhitespace).reverse.dropWhile
    Char.isWhitespace).reverse)

/-- `str::starts_with("source ")`, on the character list. -/
def startsWithSource (e : String) : Bool :=
  "source ".data.isPrefixOf e.data

/-- `normalize_example` from `analysis/mod.rs`. -/
def normalizeExample (e : String) : String :=
  if e = "" then "source unknown @ unknown"
  else if startsWithSource e then e
  else "source unknown @ unknown; " ++ e

/-- The `find`-and-update loop of `record_violation`: matching id bumps the
count and appends the example when fewer than 3 distinct examples are kept;
otherwise a fresh violation with count 1 is pushed at the end. -/
def addToViolations (vs : List Violation) (id severity message ex : String) :
    List Violation :=
  match vs with
  | [] => [{ id := id, severity := severity, message := message, count := 1,
             examples := [ex] }]
  | v :: rest =>
    if v.id = id then
      { v with
          count := v.count + 1
          examples :=
            if v.examples.length < 3 ∧ ¬ v.examples.contains ex then
              v.examples ++ [ex]
            else v.examples } :: rest
    else v :: addToViolations rest id severity message ex

/-- The `entry(protocol).or_insert_with(..)` update of the compliance map. -/
def updateComplianceMap (m : ComplianceMap) (protocol id severity message ex : String) :
    ComplianceMap :=
  match m with
  | [] =>
    [(protocol,
      { protocol := protocol, compliance_percentage := 100,
        violations := addToViolations [] id severity message ex })]
  | (k, e) :: rest =>
    if k = protocol then
      (k, { e with violations := addToViolations e.violations id severity message ex })
        :: rest
    else (k, e) :: updateComplianceMap rest protocol id severity message ex

/-- `record_violation` from `analysis/mod.rs`. -/
def recordViolation (m : ComplianceMap) (protocol id severity message ex : String) :
    ComplianceMap :=
  updateComplianceMap m (toAsciiLower (trimString protocol)) (trimString id)
    (trimString severity) (trimString message) (normalizeExample (trimString ex))

/-- The violation comparator of `finalize_compliance`:
severity rank (`error` < `warning` < other), then id. -/
def violLe (x y : Violation) : Prop :=
  severityRank x.severity < severityRank y.severity ∨
    (severityRank x.severity = severityRank y.severity ∧ x.id ≤ y.id)

instance : DecidableRel violLe := fun x y => by
  unfold violLe; infer_instance

/-- The per-entry part of `finalize_compliance`: sort the entry's violations
by (severity rank, id), then sort each violation's examples. -/
def finalizeEntry (kv : String × ComplianceSummary) : ComplianceSummary :=
  { kv.2 with violations :=
      (List.insertionSort violLe kv.2.violations).map (fun v =>
        { v with examples := List.insertionSort (· ≤ ·) v.examples }) }

/-- `finalize_compliance` from `analysis/mod.rs`: sort each entry's
violations by (severity rank, id), sort each violation's examples, then sort
the entries by protocol name. -/
def finalizeCompliance (m : ComplianceMap) : List ComplianceSummary :=
  if m.isEmpty then [] else
  List.insertionSort (fun x y => x.protocol ≤ y.protocol) (m.map finalizeEntry)

/-- One `record_violation` call site's arguments. -/
structure RecordCall where
  protocol : String
  id : String
  severity : String
  message : String
  ex : String

/-- A run of `record_violation` calls against an initially empty compliance
map. -/
def runCalls (calls : List RecordCall) : ComplianceMap :=
  calls.foldl
    (fun m c => recordViolation m c.protocol c.id c.severity c.message c.ex) []

/-! ### UDP decode failures in `analyze_source` (`analysis/mod.rs`) -/

/-- `UdpError` from `analysis/udp/error.rs`. -/
inductive UdpError
  | slice (message : String)
  | missingNetworkLayer
  | missingIpPayload
  | tooShort (needed actual : Nat)
deriving DecidableEq

/-- `SourceSummary` from the report model in `lib.rs` (IP addresses are kept
as strings). -/
structure SourceSummary where
  source_ip : String
  cid : Option String
  source_name : Option String
deriving DecidableEq

/-- `UniverseStats` from `analysis/universes.rs`; the maps are association
lists. -/
structure UniverseStats where
  frames : Nat
  sources : List (String × SourceSummary)
  first_ts : Option ℚ
  last_ts : Option ℚ
  per_source : List (String × UniverseSourceStats)

/-- `DmxFrame` from `analysis/dmx.rs`. -/
structure DmxFrame where
  uni : Nat
  timestamp : Option ℚ
  source_id : String
  protocol : DmxProtocol
  slots : List Nat

/-- The UDP flow key (IP addresses as strings). -/
structure FlowKey where
  src_ip : String
  src_port : Nat
  dst_ip : String
  dst_port : Nat
deriving DecidableEq

/-- The mutable aggregates of `analyze_source`. -/
structure AnalysisState where
  flow_stats : List (FlowKey × FlowStats)
  artnet_stats : List (Nat × UniverseStats)
  sacn_stats : List (Nat × UniverseStats)
  dmx_frames : List DmxFrame
  dmx_state : DmxStateStore
  compliance : ComplianceMap

/-- The empty aggregates at the start of `analyze_source`. -/
def emptyAnalysisState : AnalysisState :=
  { flow_stats := [], artnet_stats := [], sacn_stats := [], dmx_frames := [],
    dmx_state := [], compliance := [] }

/-- The `Err(err)` arm of the `parse_udp_packet` match in `analyze_source`:
each UDP decode failure records one compliance violation and nothing else
(the packet feeds no aggregate). -/
def handleUdpError (s : AnalysisState) (e : UdpError) : AnalysisState :=
  match e with
  | .slice message =>
    let c := recordViolation s.compliance "udp" "LS-UDP-SLICE" "error"
      "Invalid UDP slice; packet ignored" message
    { s with compliance := c }
  | .missingNetworkLayer =>
    let c := recordViolation s.compliance "udp" "LS-UDP-MISSING-NETWORK" "warning"
      "Invalid UDP packet: missing network layer; packet ignored"
      "missing network layer"
    { s with compliance := c }
  | .missingIpPayload =>
    let c := recordViolation s.compliance "udp" "LS-UDP-MISSING-PAYLOAD" "warning"
      "Invalid UDP packet: missing IP payload; packet ignored"
      "missing IP payload"
    { s with compliance := c }
  | .tooShort needed actual =>
    let c := recordViolation s.compliance "udp" "LS-UDP-TOO-SHORT" "error"
      "Invalid UDP payload length; packet ignored"
      ("needed=" ++ toString needed ++ ", actual=" ++ toString actual)
    { s with compliance := c }

/-- The violation id and severity that `analyze_source` attaches to each
`UdpError` variant. -/
def udpViolationId : UdpError → String
  | .slice _ => "LS-UDP-SLICE"
  | .missingNetworkLayer => "LS-UDP-MISSING-NETWORK"
  | .missingIpPayload => "LS-UDP-MISSING-PAYLOAD"
  | .tooShort _ _ => "LS-UDP-TOO-SHORT"

/-- The severity string recorded for each `UdpError` variant. -/
def udpViolationSeverity : UdpError → String
  | .slice _ => "error"
  | .missingNetworkLayer => "warning"
  | .missingIpPayload => "warning"
  | .tooShort _ _ => "error"

/-! ### Cross-protocol exclusivity helpers -/

/-- Whether `parse_artdmx` returns a successfully parsed frame. -/
def artdmxAccepts (p : List Nat) : Bool :=
  match parseArtdmx p with
  | .ok (some _) => true
  | _ => false

/-- Whether `parse_sacn_dmx` returns a successfully parsed frame. -/
def sacnAccepts (p : List Nat) : Bool :=
  match parseSacnDmx p with
  | .ok (some _) => true
  | _ => false

/-! ### Concrete instances used by witnesses -/

/-- A source active on t ∈ [0, 5/2]. -/
def sourceStatsA : UniverseSourceStats :=
  { UniverseSourceStats.init with first_ts := some 0, last_ts := some (mkRat 5 2) }

/-- A source active on t ∈ [1, 3]. -/
def sourceStatsB : UniverseSourceStats :=
  { UniverseSourceStats.init with first_ts := some 1, last_ts := some 3 }

/-- Universe 1 carrying the two overlapping sources above. -/
def twoSourceStats : List (Nat × List (String × UniverseSourceStats)) :=
  [(1, [("artnet:10.0.0.1:6454", sourceStatsA), ("artnet:10.0.0.2:6454", sourceStatsB)])]

/-! ## Theorems -/

/-! ### The reducible rational operations agree with Mathlib's -/

theorem qAdd_eq (a b : ℚ) : qAdd a b = a + b := (Rat.add_def' a b).symm

theorem qSub_eq (a b : ℚ) : qSub a b = a - b := (Rat.sub_def' a b).symm

theorem qMul_eq (a b : ℚ) : qMul a b = a * b := by
  rw [qMul]
  conv_rhs => rw [← Rat.mkRat_self a, ← Rat.mkRat_self b, Rat.mkRat_mul_mkRat]

theorem qInv_eq (a : ℚ) : qInv a = a.inv := (Rat.inv_def a).symm

theorem qDiv_eq (a b : ℚ) : qDiv a b = a / b := by
  rw [qDiv, qMul_eq, qInv_eq, Rat.div_def]

theorem ratAbs_eq (q : ℚ) : ratAbs q = |q| := by
  rw [ratAbs, abs]
  rcases lt_trichotomy q 0 with h | h | h
  · rw [if_pos h, sup_eq_right.2 (by linarith)]
  · subst h; simp
  · rw [if_neg (not_lt.2 h.le), sup_eq_left.2 (by linarith)]

theorem ratMin_eq (a b : ℚ) : ratMin a b = min a b := by
  rw [ratMin, min_def]

theorem ratMax_eq (a b : ℚ) : ratMax a b = max a b := by
  rw [ratMax, max_def]

/-! ### C1: DMX state reconstruction -/

theorem foldl_applyPartialImage (ps : List (List Nat)) (img : DmxImage) (k : Fin 512) :
    (ps.foldl applyPartialImage img) k = (lastWrite ps k).getD (img k) := by
  induction ps generalizing img with
  | nil => rfl
  | cons p rest ih =>
    rw [List.foldl_cons, ih, lastWrite]
    cases hrest : lastWrite rest k with
    | some v => rfl
    | none =>
      simp only [Option.getD]
      split
      · rename_i heq
        split at heq
        · rename_i hk
          have hlen : k.val < p.length := lt_of_lt_of_le hk (min_le_left _ _)
          rw [applyPartialImage, if_pos hk, List.getD_eq_getElem?_getD,
            ← List.get?_eq_getElem?, heq]
          rfl
        · cases heq
      · rename_i heq
        rw [applyPartialImage]
        split at heq
        · rename_i hk
          have hlen : k.val < p.length := lt_of_lt_of_le hk (min_le_left _ _)
          rw [List.get?_eq_getElem?, List.getElem?_eq_getElem hlen] at heq
          cases heq
        · rename_i hk
          rw [if_neg hk]

theorem lookupImage_updateStore (store : DmxStateStore) (key : DmxStateKey)
    (img : DmxImage) : lookupImage (updateStore store key img) key = some img := by
  induction store with
  | nil => simp [updateStore, lookupImage]
  | cons kv rest ih =>
    obtain ⟨k, i⟩ := kv
    by_cases h : k = key
    · rw [updateStore, if_pos h, lookupImage, if_pos rfl]
    · rw [updateStore, if_neg h, lookupImage, if_neg h, ih]

theorem applyCalls_fst_lookup (key : DmxStateKey) (ps : List (List Nat)) :
    ∀ (store : DmxStateStore) (o : Option DmxImage),
    (lookupImage (ps.foldl (applyCallsStep key) (store, o)).1 key).getD zeroImage
      = ps.foldl applyPartialImage ((lookupImage store key).getD zeroImage) := by
  induction ps with
  | nil => intro store o; rfl
  | cons p rest ih =>
    intro store o
    rw [List.foldl_cons, List.foldl_cons]
    show (lookupImage (rest.foldl (applyCallsStep key)
      ((applyPartialStore store key p).2, some (applyPartialStore store key p).1)).1
        key).getD zeroImage = _
    rw [ih]
    show rest.foldl applyPartialImage
        ((lookupImage (updateStore store key _) key).getD zeroImage) = _
    rw [lookupImage_updateStore]
    rfl

theorem applyCalls_snd_last (key : DmxStateKey) (ps : List (List Nat)) (p : List Nat) :
    ∀ (store : DmxStateStore) (o : Option DmxImage),
    ((ps ++ [p]).foldl (applyCallsStep key) (store, o)).2
      = some ((ps ++ [p]).foldl applyPartialImage
          ((lookupImage store key).getD zeroImage)) := by
  induction ps with
  | nil =>
    intro store o
    show some (applyPartialStore store key p).1 = _
    rfl
  | cons q rest ih =>
    intro store o
    rw [List.cons_append, List.foldl_cons, List.foldl_cons]
    show ((rest ++ [p]).foldl (applyCallsStep key)
      ((applyPartialStore store key q).2, some (applyPartialStore store key q).1)).2 = _
    rw [ih]
    show some ((rest ++ [p]).foldl applyPartialImage
        ((lookupImage (updateStore store key _) key).getD zeroImage)) = _
    rw [lookupImage_updateStore]
    rfl

/-- C1: for every sequence of partial updates applied through
`DmxStateStore::apply_partial` to one `(universe, source_id, protocol)` key
of a fresh store, the 512-byte array returned by the last call holds, at
every index `k`, the byte of the last partial that covers `k` (`k <
min(len, 512)`), and 0 when no partial ever wrote `k`. -/
theorem C1_dmx_state_reconstruction (u : Nat) (sid : String) (proto : DmxProtocol)
    (ps : List (List Nat)) (p : List Nat) (k : Fin 512) :
    ((applyCalls ([] : DmxStateStore) ⟨u, sid, proto⟩ (ps ++ [p])).2.getD zeroImage) k
      = (lastWrite (ps ++ [p]) k).getD 0 := by
  rw [applyCalls, applyCalls_snd_last, Option.getD_some, foldl_applyPartialImage]
  rfl

/-! ### C2: ArtDMX length validation -/

/-- C2: the claim says `parse_artdmx` fails with `LS-ARTNET-LENGTH` iff the
big-endian length violates `2 ≤ len ≤ 512` or is odd.  On the 19-byte ArtDMX
payload with length 1 (odd and below 2) the parser as written succeeds and
returns a frame, because it only rejects `length == 0 || length > 512`,
while the repository's own validating reader `read_dmx_length` (with its
tests, and the module documentation of `artnet/mod.rs`) rejects the value:
the parser's skipped call of the validator is the code bug. -/
theorem C2_length_validation_skipped :
    parseArtdmx lengthOnePayload
        = .ok (some { uni := 1, sequence := none, slots := 99 :: List.replicate 511 0 })
      ∧ ArtNetReader.readDmxLength lengthOnePayload 16 18
        = .error (.invalidDmxLength 1) :=
  ⟨rfl, rfl⟩

/-! ### C5: Art-Net universe range validation -/

/-- C5: the claim says `parse_artdmx` fails with `LS-ARTNET-UNIVERSE-ID`
(`ArtNetError::InvalidUniverseId`) when the little-endian universe field
exceeds `0x7FFF`.  On the 20-byte ArtDMX payload with universe `0x8000` the
parser as written succeeds and returns a frame, because it reads the field
with the plain `read_u16_le` and never calls the validating
`read_universe_id`, which rejects the value (as its tests and the module
documentation of `artnet/mod.rs` require): the skipped validation is the
code bug. -/
theorem C5_universe_validation_skipped :
    parseArtdmx universeOverflowPayload
        = .ok (some { uni := 32768, sequence := none,
                      slots := [7, 8] ++ List.replicate 510 0 })
      ∧ ArtNetReader.readUniverseId universeOverflowPayload 14 16
        = .error (.invalidUniverseId 32768) :=
  ⟨rfl, rfl⟩

/-! ### C3: severity of structural UDP decode failures -/

/-- C3: the claim maps every structural UDP decode failure to severity
`error`; the code maps the missing-network-layer failure to `warning`, shown
here concretely against the empty analysis state. -/
theorem C3_counterexample :
    (handleUdpError emptyAnalysisState .missingNetworkLayer).compliance
      = [("udp",
          { protocol := "udp", compliance_percentage := 100,
            violations :=
              [{ id := "LS-UDP-MISSING-NETWORK", severity := "warning",
                 message := "Invalid UDP packet: missing network layer; packet ignored",
                 count := 1,
                 examples := ["source unknown @ unknown; missing network layer"] }] })] := rfl

/-- C3 (amended): a UDP decode failure feeds no flow, universe or DMX
aggregate and records exactly one compliance violation, whose severity is
`error` for `LS-UDP-SLICE` and `LS-UDP-TOO-SHORT` and `warning` for
`LS-UDP-MISSING-NETWORK` and `LS-UDP-MISSING-PAYLOAD`. -/
theorem C3_amended (s : AnalysisState) (e : UdpError) :
    (handleUdpError s e).flow_stats = s.flow_stats
  ∧ (handleUdpError s e).artnet_stats = s.artnet_stats
  ∧ (handleUdpError s e).sacn_stats = s.sacn_stats
  ∧ (handleUdpError s e).dmx_frames = s.dmx_frames
  ∧ (handleUdpError s e).dmx_state = s.dmx_state
  ∧ (∃ message ex, (handleUdpError s e).compliance
      = recordViolation s.compliance "udp" (udpViolationId e)
          (udpViolationSeverity e) message ex)
  ∧ (udpViolationSeverity e = "error"
      ↔ (udpViolationId e = "LS-UDP-SLICE" ∨ udpViolationId e = "LS-UDP-TOO-SHORT"))
  ∧ (udpViolationSeverity e = "warning"
      ↔ (udpViolationId e = "LS-UDP-MISSING-NETWORK"
          ∨ udpViolationId e = "LS-UDP-MISSING-PAYLOAD")) := by
  cases e <;>
    exact ⟨rfl, rfl, rfl, rfl, rfl, ⟨_, _, rfl⟩,
      by simp only [udpViolationId, udpViolationSeverity]; decide,
      by simp only [udpViolationId, udpViolationSeverity]; decide⟩

/-! ### C4: silent rejection vs structured sACN errors -/

theorem ok_bind {ε α β : Type} (a : α) (f : α → Except ε β) :
    (Except.ok a >>= f) = f a := rfl

theorem pure_bind_except {ε α β : Type} (a : α) (f : α → Except ε β) :
    ((pure a : Except ε α) >>= f) = f a := rfl

theorem error_bind {ε α β : Type} (e : ε) (f : α → Except ε β) :
    ((Except.error e : Except ε α) >>= f) = .error e := rfl

theorem throw_bind {ε α β : Type} (e : ε) (f : α → Except ε β) :
    ((throw e : Except ε α) >>= f) = .error e := rfl

theorem bind_ne_okNone {α : Type} {x : Except SacnError α}
    {f : α → Except SacnError (Option SacnDmx)} (h : ∀ a, f a ≠ .ok none) :
    (x >>= f) ≠ .ok none := by
  cases x with
  | error e => rw [error_bind]; intro hc; cases hc
  | ok a => rw [ok_bind]; exact h a

theorem sliceLen (p : List Nat) (s n : Nat) (h : s + n ≤ p.length) :
    ((p.drop s).take n).length = n := by
  rw [List.length_take, List.length_drop]
  omega

theorem sliceGetD (p : List Nat) (s n i : Nat) (hi : i < n) :
    ((p.drop s).take n).getD i 0 = byteAt p (s + i) := by
  rw [List.getD_eq_getElem?_getD, List.getElem?_take, if_pos hi, List.getElem?_drop,
    byteAt, List.getD_eq_getElem?_getD]

theorem sacn_requireLen_ok (p : List Nat) (n : Nat) (h : n ≤ p.length) :
    SacnReader.requireLen p n = .ok () := by
  rw [SacnReader.requireLen, if_neg (Nat.not_lt.2 h)]

theorem sacn_readSlice_ok (p : List Nat) (s n : Nat) (h : s + n ≤ p.length) :
    SacnReader.readSlice p s (s + n) = .ok ((p.drop s).take n) := by
  rw [SacnReader.readSlice, if_pos ⟨Nat.le_add_right s n, h⟩, Nat.add_sub_cancel_left]

theorem sacn_readU16be_ok (p : List Nat) (s : Nat) (h : s + 2 ≤ p.length) :
    SacnReader.readU16be p s (s + 2) = .ok (be16 p s) := by
  rw [SacnReader.readU16be, sacn_readSlice_ok p s 2 h, ok_bind,
    if_neg (by rw [sliceLen p s 2 h]; decide)]
  rw [sliceGetD p s 2 0 (by decide), sliceGetD p s 2 1 (by decide)]
  rfl

theorem sacn_readU32be_ok (p : List Nat) (s : Nat) (h : s + 4 ≤ p.length) :
    SacnReader.readU32be p s (s + 4) = .ok (be32 p s) := by
  rw [SacnReader.readU32be, sacn_readSlice_ok p s 4 h, ok_bind,
    if_neg (by rw [sliceLen p s 4 h]; decide)]
  rw [sliceGetD p s 4 0 (by decide), sliceGetD p s 4 1 (by decide),
    sliceGetD p s 4 2 (by decide), sliceGetD p s 4 3 (by decide)]
  rfl

theorem sacn_readU8_ok (p : List Nat) (off : Nat) (h : off < p.length) :
    SacnReader.readU8 p off = .ok (byteAt p off) := by
  rw [SacnReader.readU8]
  rw [byteAt, List.getD_eq_getElem?_getD, ← List.get?_eq_getElem?]
  cases hg : p.get? off with
  | none =>
    rw [List.get?_eq_getElem?, List.getElem?_eq_getElem h] at hg
    cases hg
  | some v => rfl

/-- C4: the claim says every mismatch of preamble/postamble, root vector,
framing vector or DMP vector makes `parse_sacn_dmx` return a silent `None`;
on the payload with valid preamble, postamble and ACN PID but root vector 1
the parser returns the structured root-vector error instead of `None`. -/
theorem C4_root_vector_counterexample :
    parseSacnDmx badRootVectorPayload = .error (.invalidRootVector 1)
      ∧ parseSacnDmx badRootVectorPayload ≠ .ok none :=
  ⟨rfl, fun h => nomatch h⟩

/-- C4 (amended): on payloads long enough for the early checks (≥ 118
bytes), `parse_sacn_dmx` returns silent `None` exactly when the
preamble/postamble pair does not match `0x0010`/`0x0000`; mismatches of the
root vector, framing vector or DMP vector instead fail with the structured
errors behind `LS-SACN-ROOT-VECTOR`, `LS-SACN-FRAMING-VECTOR` and
`LS-SACN-DMP-VECTOR`. -/
theorem C4_silent_none_vs_errors (p : List Nat) (hlen : 118 ≤ p.length) :
    (parseSacnDmx p = .ok none ↔ ¬(be16 p 0 = 16 ∧ be16 p 2 = 0))
  ∧ (be16 p 0 = 16 → be16 p 2 = 0 → (p.drop 4).take 12 = acnPidBytes →
      be32 p 18 ≠ 4 → parseSacnDmx p = .error (.invalidRootVector (be32 p 18)))
  ∧ (be16 p 0 = 16 → be16 p 2 = 0 → (p.drop 4).take 12 = acnPidBytes →
      be32 p 18 = 4 → be32 p 40 ≠ 2 →
      parseSacnDmx p = .error (.invalidFramingVector (be32 p 40)))
  ∧ (be16 p 0 = 16 → be16 p 2 = 0 → (p.drop 4).take 12 = acnPidBytes →
      be32 p 18 = 4 → be32 p 40 = 2 → byteAt p 117 ≠ 2 →
      parseSacnDmx p = .error (.invalidDmpVector (byteAt p 117))) := by
  have e1 : SacnReader.requireLen p 118 = .ok () := sacn_requireLen_ok p 118 hlen
  have e2 : SacnReader.readU16be p 0 2 = .ok (be16 p 0) :=
    sacn_readU16be_ok p 0 (by omega)
  have e3 : SacnReader.readU16be p 2 4 = .ok (be16 p 2) :=
    sacn_readU16be_ok p 2 (by omega)
  have e4 : SacnReader.readSlice p 4 16 = .ok ((p.drop 4).take 12) :=
    sacn_readSlice_ok p 4 12 (by omega)
  have e5 : SacnReader.readU32be p 18 22 = .ok (be32 p 18) :=
    sacn_readU32be_ok p 18 (by omega)
  have e6 : SacnReader.readU32be p 40 44 = .ok (be32 p 40) :=
    sacn_readU32be_ok p 40 (by omega)
  have e7 : SacnReader.readU8 p 117 = .ok (byteAt p 117) :=
    sacn_readU8_ok p 117 (by omega)
  rw [parseSacnDmx]
  rw [e1, e2, e3, e4, e5, e6, e7]
  simp only [ok_bind, pure_bind_except, throw_bind]
  refine ⟨?_, ?_, ?_, ?_⟩
  · by_cases hpre : be16 p 0 ≠ 16 ∨ be16 p 2 ≠ 0
    · rw [if_pos hpre]
      exact ⟨fun _ => by tauto, fun _ => rfl⟩
    · rw [if_neg hpre]
      constructor
      · intro hok
        exfalso
        revert hok
        split
        · intro hc; cases hc
        · split
          · intro hc; cases hc
          · split
            · intro hc; cases hc
            · split
              · intro hc; cases hc
              · apply bind_ne_okNone; intro a
                apply bind_ne_okNone; intro b
                apply bind_ne_okNone; intro c
                apply bind_ne_okNone; intro d
                apply bind_ne_okNone; intro e
                apply bind_ne_okNone; intro f
                split
                · apply bind_ne_okNone; intro g
                  intro hc
                  exact Option.noConfusion (Except.ok.inj hc)
                · intro hc
                  exact Option.noConfusion (Except.ok.inj hc)
      · intro hmm
        exfalso
        apply hmm
        constructor
        · by_contra hne; exact hpre (Or.inl hne)
        · by_contra hne; exact hpre (Or.inr hne)
  · intro h1 h2 h3 h4
    rw [if_neg (by omega), if_neg (fun hc => hc h3), if_pos h4]
  · intro h1 h2 h3 h4 h5
    rw [if_neg (by omega), if_neg (fun hc => hc h3), if_neg (fun hc => hc h4),
      if_pos h5]
  · intro h1 h2 h3 h4 h5 h6
    rw [if_neg (by omega), if_neg (fun hc => hc h3), if_neg (fun hc => hc h4),
      if_neg (fun hc => hc h5), if_pos h6]

theorem C4_silent_none_vs_errors_witness :
    118 ≤ badFramingVectorPayload.length
      ∧ parseSacnDmx badFramingVectorPayload
          = .error (.invalidFramingVector (be32 badFramingVectorPayload 40)) :=
  ⟨by decide,
    (C4_silent_none_vs_errors badFramingVectorPayload (by decide)).2.2.1
      (by decide) (by decide) (by decide) (by decide) (by decide)⟩

/-! ### C6: burst-loss accounting on sequences [1,2,5,6,10] -/

/-- C6: one source on one universe sending sequence numbers `[1,2,5,6,10]`
at 1 Hz yields `loss_packets = 5`, `burst_count = 2` and `max_burst_len = 3`
in the finalized metrics (`compute_metrics` over the per-source stats built
by `update_source_stats`; the gap `g = (seq - (last_seq+1)) mod 256` counts
as loss exactly when `0 < g < 128`). -/
theorem C6_burst_loss_scenario :
    (computeMetrics [s2SourceStats]).loss_packets = some 5
      ∧ (computeMetrics [s2SourceStats]).burst_count = some 2
      ∧ (computeMetrics [s2SourceStats]).max_burst_len = some 3 := by
  refine ⟨?_, ?_, ?_⟩ <;> decide

/-! ### C7: the 1 s conflict threshold -/

theorem pairConflict_some {u : Nat} {x y : String × UniverseSourceStats}
    {c : ConflictSummary} (h : pairConflict u x y = some c) :
    c.uni = u ∧ c.sources = [x.1, y.1] := by
  unfold pairConflict at h
  split at h
  · simp only at h
    split at h
    · cases h
      exact ⟨rfl, rfl⟩
    · cases h
  · cases h

theorem conflictMatches_true {u : Nat} {a b : String} {c : ConflictSummary}
    (h : conflictMatches u a b c = true) : c.uni = u ∧ c.sources = [a, b] := by
  rw [conflictMatches, Bool.and_eq_true] at h
  exact ⟨of_decide_eq_true h.1, of_decide_eq_true h.2⟩

theorem conflictMatches_record (u : Nat) (a b : String) (ov : ℚ) :
    conflictMatches u a b (conflictRecord u a b ov) = true := by
  simp [conflictMatches, conflictRecord]

theorem pairwise_lt_keys_nodup {ks : List (String × UniverseSourceStats)}
    (h : ks.Pairwise (fun x y => x.1 < y.1)) : (ks.map Prod.fst).Nodup := by
  rw [List.Nodup, List.pairwise_map]
  exact h.imp (fun hlt => ne_of_lt hlt)

theorem filter_filterMap_ne_first {u : Nat} {a b : String}
    {x : String × UniverseSourceStats} (hne : x.1 ≠ a)
    (ks : List (String × UniverseSourceStats)) :
    (ks.filterMap (pairConflict u x)).filter (conflictMatches u a b) = [] := by
  apply List.filter_eq_nil_iff.2
  intro c hc
  obtain ⟨y, _, hy⟩ := List.mem_filterMap.1 hc
  obtain ⟨_, hsrc⟩ := pairConflict_some hy
  intro hp
  obtain ⟨_, h2⟩ := conflictMatches_true hp
  rw [hsrc] at h2
  exact hne (List.cons_eq_cons.1 h2).1

theorem filter_filterMap_b_notin {u : Nat} {a b : String}
    {sa : UniverseSourceStats} (ks : List (String × UniverseSourceStats))
    (hnot : b ∉ ks.map Prod.fst) :
    (ks.filterMap (pairConflict u (a, sa))).filter (conflictMatches u a b) = [] := by
  apply List.filter_eq_nil_iff.2
  intro c hc
  obtain ⟨y, hyin, hy⟩ := List.mem_filterMap.1 hc
  obtain ⟨_, hsrc⟩ := pairConflict_some hy
  intro hp
  obtain ⟨_, h2⟩ := conflictMatches_true hp
  rw [hsrc] at h2
  have h4 : y.1 = b := (List.cons_eq_cons.1 (List.cons_eq_cons.1 h2).2).1
  exact hnot (h4 ▸ List.mem_map_of_mem Prod.fst hyin)

theorem filter_pairLoop_first_absent {u : Nat} {a b : String}
    (ks : List (String × UniverseSourceStats)) (hnot : ∀ y ∈ ks, y.1 ≠ a) :
    (pairLoop u ks).filter (conflictMatches u a b) = [] := by
  induction ks with
  | nil => rfl
  | cons x rest ih =>
    rw [pairLoop, List.filter_append,
      filter_filterMap_ne_first (hnot x (List.mem_cons_self x rest)) rest,
      ih (fun y hy => hnot y (List.mem_cons_of_mem x hy)), List.append_nil]

theorem filter_filterMap_pair {u : Nat} {a b : String}
    {sa sb : UniverseSourceStats} {fa ea fb eb : ℚ}
    (hfa : sa.first_ts = some fa) (hea : sa.last_ts = some ea)
    (hfb : sb.first_ts = some fb) (heb : sb.last_ts = some eb) :
    ∀ (ks : List (String × UniverseSourceStats)), (ks.map Prod.fst).Nodup →
      (b, sb) ∈ ks →
      (ks.filterMap (pairConflict u (a, sa))).filter (conflictMatches u a b)
        = if 1 < overlapQ fa ea fb eb then
            [conflictRecord u a b (overlapQ fa ea fb eb)]
          else [] := by
  intro ks
  induction ks with
  | nil => intro _ hmem; cases hmem
  | cons y rest ih =>
    intro hnd hmem
    have hndtail : (rest.map Prod.fst).Nodup := (List.nodup_cons.1 hnd).2
    have hhead : y.1 ∉ rest.map Prod.fst := (List.nodup_cons.1 hnd).1
    rcases List.mem_cons.1 hmem with heq | hmem'
    · subst heq
      have hbnot : b ∉ rest.map Prod.fst := hhead
      have hpc : pairConflict u (a, sa) (b, sb)
          = if 1 < overlapQ fa ea fb eb then
              some (conflictRecord u a b (overlapQ fa ea fb eb))
            else none := by
        unfold pairConflict
        rw [hfa, hea, hfb, heb]
      rw [List.filterMap_cons, hpc]
      by_cases hov : 1 < overlapQ fa ea fb eb
      · rw [if_pos hov, if_pos hov,
          List.filter_cons_of_pos (conflictMatches_record u a b _),
          filter_filterMap_b_notin rest hbnot]
      · rw [if_neg hov, if_neg hov, filter_filterMap_b_notin rest hbnot]
    · have hyne : y.1 ≠ b := by
        intro hcontra
        exact hhead (hcontra ▸ List.mem_map_of_mem Prod.fst hmem')
      rw [List.filterMap_cons]
      cases hpc : pairConflict u (a, sa) y with
      | none => exact ih hndtail hmem'
      | some c =>
        obtain ⟨_, hsrc⟩ := pairConflict_some hpc
        rw [List.filter_cons_of_neg (by
          intro hp
          obtain ⟨_, h2⟩ := conflictMatches_true hp
          rw [hsrc] at h2
          exact hyne (List.cons_eq_cons.1 (List.cons_eq_cons.1 h2).2).1)]
        exact ih hndtail hmem'

theorem filter_pairLoop_sorted {u : Nat} {a b : String}
    {sa sb : UniverseSourceStats} {fa ea fb eb : ℚ}
    (hfa : sa.first_ts = some fa) (hea : sa.last_ts = some ea)
    (hfb : sb.first_ts = some fb) (heb : sb.last_ts = some eb) (hab : a < b) :
    ∀ (ks : List (String × UniverseSourceStats)),
      ks.Pairwise (fun x y => x.1 < y.1) → (a, sa) ∈ ks → (b, sb) ∈ ks →
      (pairLoop u ks).filter (conflictMatches u a b)
        = if 1 < overlapQ fa ea fb eb then
            [conflictRecord u a b (overlapQ fa ea fb eb)]
          else [] := by
  intro ks
  induction ks with
  | nil => intro _ hmem; cases hmem
  | cons x rest ih =>
    intro hpair hma hmb
    have hrel := (List.pairwise_cons.1 hpair).1
    have htail := (List.pairwise_cons.1 hpair).2
    rw [pairLoop, List.filter_append]
    rcases List.mem_cons.1 hma with heqa | hma'
    · subst heqa
      have hmb' : (b, sb) ∈ rest := by
        rcases List.mem_cons.1 hmb with heqb | h
        · cases heqb
          exact absurd hab (lt_irrefl _)
        · exact h
      have hanot : ∀ y ∈ rest, y.1 ≠ a := by
        intro y hy
        exact fun hc => absurd (hc ▸ hrel y hy) (lt_irrefl _)
      rw [filter_filterMap_pair hfa hea hfb heb rest
          (pairwise_lt_keys_nodup htail) hmb',
        filter_pairLoop_first_absent rest hanot, List.append_nil]
    · rcases List.mem_cons.1 hmb with heqb | hmb'
      · cases heqb
        have hba : b < a := hrel (a, sa) hma'
        exact absurd (lt_trans hab hba) (lt_irrefl _)
      · have hxa : x.1 ≠ a := by
          intro hc
          exact absurd (hc ▸ hrel (a, sa) hma') (lt_irrefl _)
        rw [filter_filterMap_ne_first hxa rest, List.nil_append]
        exact ih htail hma' hmb'

theorem mem_pairLoop_uni {u : Nat} {ks : List (String × UniverseSourceStats)}
    {c : ConflictSummary} (h : c ∈ pairLoop u ks) : c.uni = u := by
  induction ks with
  | nil => cases h
  | cons x rest ih =>
    rw [pairLoop] at h
    rcases List.mem_append.1 h with h1 | h2
    · obtain ⟨y, _, hy⟩ := List.mem_filterMap.1 h1
      exact (pairConflict_some hy).1
    · exact ih h2

theorem filter_conflictsForUniverse_ne {u' u : Nat} {a b : String}
    (l : List (String × UniverseSourceStats)) (hne : u' ≠ u) :
    (conflictsForUniverse u' l).filter (conflictMatches u a b) = [] := by
  apply List.filter_eq_nil_iff.2
  intro c hc hp
  rw [conflictsForUniverse] at hc
  exact hne ((mem_pairLoop_uni hc) ▸ (conflictMatches_true hp).1)

theorem filter_flatMap_absent {u : Nat} {a b : String}
    (stats : List (Nat × List (String × UniverseSourceStats)))
    (hnot : u ∉ stats.map Prod.fst) :
    ((stats.flatMap fun e => conflictsForUniverse e.1 e.2).filter
        (conflictMatches u a b)) = [] := by
  induction stats with
  | nil => rfl
  | cons e rest ih =>
    have hne : e.1 ≠ u := by
      intro hc
      apply hnot
      rw [List.map_cons, hc]
      exact List.mem_cons_self u _
    have hnot' : u ∉ rest.map Prod.fst := by
      intro hc
      exact hnot (by rw [List.map_cons]; exact List.mem_cons_of_mem _ hc)
    rw [List.flatMap_cons, List.filter_append,
      filter_conflictsForUniverse_ne e.2 hne, ih hnot', List.append_nil]

theorem filter_flatMap_found {u : Nat} {a b : String}
    (stats : List (Nat × List (String × UniverseSourceStats)))
    (l : List (String × UniverseSourceStats))
    (hu : (stats.map Prod.fst).Nodup) (hl : (u, l) ∈ stats) :
    ((stats.flatMap fun e => conflictsForUniverse e.1 e.2).filter
        (conflictMatches u a b))
      = (conflictsForUniverse u l).filter (conflictMatches u a b) := by
  induction stats with
  | nil => cases hl
  | cons e rest ih =>
    have hhead : e.1 ∉ rest.map Prod.fst := (List.nodup_cons.1 hu).1
    have htail : (rest.map Prod.fst).Nodup := (List.nodup_cons.1 hu).2
    rw [List.flatMap_cons, List.filter_append]
    rcases List.mem_cons.1 hl with heq | hmem
    · cases heq
      rw [filter_flatMap_absent rest hhead, List.append_nil]
    · have hne : e.1 ≠ u := by
        intro hc
        exact hhead (hc ▸ List.mem_map_of_mem Prod.fst hmem)
      rw [filter_conflictsForUniverse_ne e.2 hne, List.nil_append]
      exact ih htail hmem

/-- C7: for every universe and every pair of distinct sources (taken in
ascending key order, as `build_conflicts` iterates the sorted keys) whose
first and last timestamps are known, the finalized conflict list contains
exactly one record for the pair when
`overlap = max(0, min(end_a,end_b) - max(start_a,start_b))` exceeds 1 s and
none otherwise, and the record carries `overlap_duration_s = overlap`. -/
theorem C7_conflict_threshold
    (stats : List (Nat × List (String × UniverseSourceStats))) (u : Nat)
    (l : List (String × UniverseSourceStats)) (a b : String)
    (sa sb : UniverseSourceStats) (fa ea fb eb : ℚ)
    (hu : (stats.map Prod.fst).Nodup) (hl : (u, l) ∈ stats)
    (hk : (l.map Prod.fst).Nodup)
    (ha : (a, sa) ∈ l) (hb : (b, sb) ∈ l) (hab : a < b)
    (hfa : sa.first_ts = some fa) (hea : sa.last_ts = some ea)
    (hfb : sb.first_ts = some fb) (heb : sb.last_ts = some eb) :
    (buildConflicts stats).filter (conflictMatches u a b)
      = if 1 < overlapQ fa ea fb eb then
          [conflictRecord u a b (overlapQ fa ea fb eb)]
        else [] := by
  haveI : IsTotal (String × UniverseSourceStats) (fun x y => x.1 ≤ y.1) :=
    ⟨fun x y => le_total x.1 y.1⟩
  haveI : IsTrans (String × UniverseSourceStats) (fun x y => x.1 ≤ y.1) :=
    ⟨fun x y z hxy hyz => le_trans hxy hyz⟩
  have hfilter : List.Perm
      ((buildConflicts stats).filter (conflictMatches u a b))
      ((stats.flatMap fun e => conflictsForUniverse e.1 e.2).filter
        (conflictMatches u a b)) := by
    rw [buildConflicts]
    exact (List.perm_insertionSort _ _).filter _
  rw [filter_flatMap_found stats l hu hl] at hfilter
  have hsortperm : List.Perm (List.insertionSort (fun x y => x.1 ≤ y.1) l) l :=
    List.perm_insertionSort _ _
  have hsorted : (List.insertionSort (fun x y => x.1 ≤ y.1) l).Pairwise
      (fun x y => x.1 < y.1) := by
    have hs := List.sorted_insertionSort (fun x y => x.1 ≤ y.1) l
    have hnd : ((List.insertionSort (fun x y => x.1 ≤ y.1) l).map Prod.fst).Nodup :=
      (List.Perm.nodup_iff (hsortperm.map Prod.fst)).2 hk
    have hne : (List.insertionSort (fun x y => x.1 ≤ y.1) l).Pairwise
        (fun x y => x.1 ≠ y.1) := by
      rw [List.Nodup, List.pairwise_map] at hnd
      exact hnd
    exact (hs.and hne).imp (fun h => lt_of_le_of_ne h.1 h.2)
  have hma : (a, sa) ∈ List.insertionSort (fun x y => x.1 ≤ y.1) l :=
    hsortperm.mem_iff.2 ha
  have hmb : (b, sb) ∈ List.insertionSort (fun x y => x.1 ≤ y.1) l :=
    hsortperm.mem_iff.2 hb
  rw [conflictsForUniverse,
    filter_pairLoop_sorted hfa hea hfb heb hab _ hsorted hma hmb] at hfilter
  by_cases hov : 1 < overlapQ fa ea fb eb
  · rw [if_pos hov] at hfilter ⊢
    exact List.perm_singleton.1 hfilter
  · rw [if_neg hov] at hfilter ⊢
    exact hfilter.eq_nil

theorem C7_conflict_threshold_witness :
    (buildConflicts twoSourceStats).filter
        (conflictMatches 1 "artnet:10.0.0.1:6454" "artnet:10.0.0.2:6454")
      = [conflictRecord 1 "artnet:10.0.0.1:6454" "artnet:10.0.0.2:6454" (mkRat 3 2)] := by
  have h := C7_conflict_threshold twoSourceStats 1
    [("artnet:10.0.0.1:6454", sourceStatsA), ("artnet:10.0.0.2:6454", sourceStatsB)]
    "artnet:10.0.0.1:6454" "artnet:10.0.0.2:6454" sourceStatsA sourceStatsB
    0 (mkRat 5 2) 1 3
    (by decide) (by decide) (by decide) (by decide) (by decide)
    (by rw [String.lt_iff_toList_lt]; decide)
    rfl rfl rfl rfl
  rw [h, if_pos (by decide),
    show overlapQ 0 (mkRat 5 2) 1 3 = mkRat 3 2 from by decide]

/-! ### C8: compliance finalization invariants -/

/-- The per-violation invariant maintained by `record_violation`:
examples are pairwise distinct and at most 3. -/
abbrev ViolationInv (v : Violation) : Prop :=
  v.examples.Nodup ∧ v.examples.length ≤ 3

/-- The compliance-map invariant. -/
abbrev ComplianceInv (m : ComplianceMap) : Prop :=
  ∀ kv ∈ m, ∀ v ∈ kv.2.violations, ViolationInv v

theorem violLe_total : ∀ x y : Violation, violLe x y ∨ violLe y x := by
  intro x y
  rcases Nat.lt_trichotomy (severityRank x.severity) (severityRank y.severity)
    with h | h | h
  · exact Or.inl (Or.inl h)
  · rcases le_total x.id y.id with hid | hid
    · exact Or.inl (Or.inr ⟨h, hid⟩)
    · exact Or.inr (Or.inr ⟨h.symm, hid⟩)
  · exact Or.inr (Or.inl h)

theorem violLe_trans : ∀ x y z : Violation, violLe x y → violLe y z → violLe x z := by
  intro x y z hxy hyz
  rcases hxy with h1 | ⟨h1, hid1⟩
  · rcases hyz with h2 | ⟨h2, _⟩
    · exact Or.inl (lt_trans h1 h2)
    · exact Or.inl (h2 ▸ h1)
  · rcases hyz with h2 | ⟨h2, hid2⟩
    · exact Or.inl (h1 ▸ h2)
    · exact Or.inr ⟨h1.trans h2, le_trans hid1 hid2⟩

theorem addToViolations_inv {vs : List Violation} {id sev msg ex : String}
    (h : ∀ v ∈ vs, ViolationInv v) :
    ∀ v ∈ addToViolations vs id sev msg ex, ViolationInv v := by
  induction vs with
  | nil =>
    intro v hv
    rw [addToViolations] at hv
    rcases List.mem_singleton.1 hv with rfl
    exact ⟨List.nodup_singleton ex, by simp⟩
  | cons w rest ih =>
    intro v hv
    rw [addToViolations] at hv
    split at hv
    · rcases List.mem_cons.1 hv with rfl | hvrest
      · have hw := h w (List.mem_cons_self w rest)
        constructor
        · dsimp only
          split
          · rename_i hcond
            rw [← List.concat_eq_append]
            exact hw.1.concat (by simpa using hcond.2)
          · exact hw.1
        · dsimp only
          split
          · rename_i hcond
            rw [List.length_append, List.length_singleton]
            omega
          · exact hw.2
      · exact h v (List.mem_cons_of_mem w hvrest)
    · rcases List.mem_cons.1 hv with rfl | hvrest
      · exact h v (List.mem_cons_self v rest)
      · exact ih (fun v hv => h v (List.mem_cons_of_mem w hv)) v hvrest

theorem updateComplianceMap_inv {m : ComplianceMap}
    {protocol id sev msg ex : String} (h : ComplianceInv m) :
    ComplianceInv (updateComplianceMap m protocol id sev msg ex) := by
  induction m with
  | nil =>
    intro kv hkv
    rw [updateComplianceMap] at hkv
    rcases List.mem_singleton.1 hkv with rfl
    exact addToViolations_inv (by intro v hv; cases hv)
  | cons e rest ih =>
    intro kv hkv
    rw [updateComplianceMap] at hkv
    split at hkv
    · rcases List.mem_cons.1 hkv with rfl | hkvrest
      · exact addToViolations_inv (h e (List.mem_cons_self e rest))
      · exact h kv (List.mem_cons_of_mem e hkvrest)
    · rcases List.mem_cons.1 hkv with heq | hkvrest
      · rw [heq]
        exact h e (List.mem_cons_self e rest)
      · exact ih (fun kv2 hkv2 v hv => h kv2 (List.mem_cons_of_mem e hkv2) v hv) kv hkvrest

theorem runCalls_inv (calls : List RecordCall) : ComplianceInv (runCalls calls) := by
  rw [runCalls]
  have hgen : ∀ (cs : List RecordCall) (m : ComplianceMap), ComplianceInv m →
      ComplianceInv (cs.foldl
        (fun m c => recordViolation m c.protocol c.id c.severity c.message c.ex) m) := by
    intro cs
    induction cs with
    | nil => intro m hm; exact hm
    | cons c rest ih =>
      intro m hm
      rw [List.foldl_cons]
      exact ih _ (updateComplianceMap_inv hm)
  exact hgen calls [] (by intro kv hkv; cases hkv)

theorem finalizeCompliance_props (m : ComplianceMap) (hP : ComplianceInv m) :
    ((finalizeCompliance m).map (fun e => e.protocol)).Pairwise (· ≤ ·)
  ∧ (∀ e ∈ finalizeCompliance m, e.violations.Pairwise violLe)
  ∧ (∀ e ∈ finalizeCompliance m, ∀ v ∈ e.violations,
      v.examples.Pairwise (· ≤ ·) ∧ v.examples.Nodup ∧ v.examples.length ≤ 3) := by
  haveI : IsTotal ComplianceSummary (fun x y => x.protocol ≤ y.protocol) :=
    ⟨fun x y => le_total x.protocol y.protocol⟩
  haveI : IsTrans ComplianceSummary (fun x y => x.protocol ≤ y.protocol) :=
    ⟨fun x y z h1 h2 => le_trans h1 h2⟩
  haveI : IsTotal Violation violLe := ⟨violLe_total⟩
  haveI : IsTrans Violation violLe := ⟨violLe_trans⟩
  haveI : IsTotal String (· ≤ ·) := ⟨le_total⟩
  haveI : IsTrans String (· ≤ ·) := ⟨fun x y z h1 h2 => le_trans h1 h2⟩
  by_cases hm : m.isEmpty
  · rw [finalizeCompliance, if_pos hm]
    exact ⟨List.Pairwise.nil, fun e he => absurd he (List.not_mem_nil e),
      fun e he => absurd he (List.not_mem_nil e)⟩
  · rw [finalizeCompliance, if_neg hm]
    refine ⟨?_, ?_, ?_⟩
    · refine List.pairwise_map.2 ?_
      exact List.sorted_insertionSort (fun x y => x.protocol ≤ y.protocol)
        (m.map finalizeEntry)
    · intro e he
      have he' : e ∈ m.map finalizeEntry :=
        (List.perm_insertionSort _ _).mem_iff.1 he
      obtain ⟨kv, _, hkv⟩ := List.mem_map.1 he'
      have hsorted := List.sorted_insertionSort violLe kv.2.violations
      have hviol : e.violations = (List.insertionSort violLe kv.2.violations).map
          (fun v => { v with examples := List.insertionSort (· ≤ ·) v.examples }) := by
        rw [← hkv]
        rfl
      rw [hviol]
      exact List.pairwise_map.2 (hsorted.imp (fun h => h))
    · intro e he v hv
      have he' : e ∈ m.map finalizeEntry :=
        (List.perm_insertionSort _ _).mem_iff.1 he
      obtain ⟨kv, hkvmem, hkv⟩ := List.mem_map.1 he'
      have hviol : e.violations = (List.insertionSort violLe kv.2.violations).map
          (fun v => { v with examples := List.insertionSort (· ≤ ·) v.examples }) := by
        rw [← hkv]
        rfl
      rw [hviol] at hv
      obtain ⟨v0, hv0mem, hv0⟩ := List.mem_map.1 hv
      have hv0orig : v0 ∈ kv.2.violations :=
        (List.perm_insertionSort _ _).mem_iff.1 hv0mem
      have hinv := hP kv hkvmem v0 hv0orig
      have hex : v.examples = List.insertionSort (· ≤ ·) v0.examples := by
        rw [← hv0]
      have hperm : List.Perm (List.insertionSort (· ≤ ·) v0.examples) v0.examples :=
        List.perm_insertionSort _ _
      refine ⟨?_, ?_, ?_⟩
      · rw [hex]
        exact List.sorted_insertionSort (· ≤ ·) v0.examples
      · rw [hex]
        exact hperm.nodup_iff.2 hinv.1
      · rw [hex, hperm.length_eq]
        exact hinv.2

/-- C8: after any sequence of `record_violation` calls, the finalized
compliance report lists protocols in ascending name order; within each
protocol the violations are sorted by severity rank (`error` < `warning` <
other) then by id; and every violation's examples list is sorted, pairwise
distinct and holds at most 3 entries. -/
theorem C8_compliance_finalize_invariants (calls : List RecordCall) :
    ((finalizeCompliance (runCalls calls)).map (fun e => e.protocol)).Pairwise (· ≤ ·)
  ∧ (∀ e ∈ finalizeCompliance (runCalls calls), e.violations.Pairwise violLe)
  ∧ (∀ e ∈ finalizeCompliance (runCalls calls), ∀ v ∈ e.violations,
      v.examples.Pairwise (· ≤ ·) ∧ v.examples.Nodup ∧ v.examples.length ≤ 3) :=
  finalizeCompliance_props (runCalls calls) (runCalls_inv calls)

/-! ### C9: gating of the flow rate fields -/

/-- The timestamp/peak bookkeeping invariant of a flow entry. -/
abbrev FlowTsInv (s : FlowStats) : Prop :=
  s.last_ts.isSome = s.first_ts.isSome
    ∧ s.peak_pps.isSome = s.first_ts.isSome
    ∧ s.peak_bps.isSome = s.first_ts.isSome

theorem addFlowStats_none (s : FlowStats) (n : Nat) :
    (addFlowStats s none n).first_ts = s.first_ts
      ∧ (addFlowStats s none n).last_ts = s.last_ts
      ∧ (addFlowStats s none n).peak_pps = s.peak_pps
      ∧ (addFlowStats s none n).peak_bps = s.peak_bps :=
  ⟨rfl, rfl, rfl, rfl⟩

theorem updateFlowJitter_some (s : FlowStats) (t : ℚ) :
    (updateFlowJitter s (some t)).first_ts.isSome = true
  ∧ (updateFlowJitter s (some t)).last_ts = some t
  ∧ (updateFlowJitter s (some t)).peak_pps = s.peak_pps
  ∧ (updateFlowJitter s (some t)).peak_bps = s.peak_bps := by
  obtain ⟨pk, byt, ft, lt, pi, ic, mi, js, jsam, jp, wp, wb, ws, ppps, pbps, pwp, pwb⟩ := s
  cases ft <;> cases lt <;> cases pi <;>
    refine ⟨?_, ?_, ?_, ?_⟩ <;>
      (first
        | rfl
        | (simp only [updateFlowJitter]
           repeat' split
           all_goals first
             | rfl
             | (exfalso; simp_all)))

theorem updateFlowRates_some (s : FlowStats) (t : ℚ) (n : Nat) :
    (updateFlowRates s (some t) n).peak_pps.isSome = true
  ∧ (updateFlowRates s (some t) n).peak_bps.isSome = true
  ∧ (updateFlowRates s (some t) n).first_ts = s.first_ts
  ∧ (updateFlowRates s (some t) n).last_ts = s.last_ts :=
  ⟨rfl, rfl, rfl, rfl⟩

theorem addFlowStats_some (s : FlowStats) (n : Nat) (t : ℚ) :
    (addFlowStats s (some t) n).first_ts.isSome = true
      ∧ (addFlowStats s (some t) n).last_ts.isSome = true
      ∧ (addFlowStats s (some t) n).peak_pps.isSome = true
      ∧ (addFlowStats s (some t) n).peak_bps.isSome = true := by
  have hj := updateFlowJitter_some
    { s with packets := s.packets + 1, bytes := s.bytes + n } t
  have hr := updateFlowRates_some
    (updateFlowJitter { s with packets := s.packets + 1, bytes := s.bytes + n }
      (some t)) t n
  refine ⟨?_, ?_, hr.1, hr.2.1⟩
  · rw [addFlowStats, hr.2.2.1]
    exact hj.1
  · rw [addFlowStats, hr.2.2.2, hj.2.1]
    rfl

theorem runFlowUpdates_inv :
    ∀ (updates : List (Option ℚ × Nat)) (s : FlowStats), FlowTsInv s →
      FlowTsInv (updates.foldl (fun s u => addFlowStats s u.1 u.2) s)
        ∧ (updates.foldl (fun s u => addFlowStats s u.1 u.2) s).first_ts.isSome
            = (s.first_ts.isSome || updates.any (fun u => u.1.isSome)) := by
  intro updates
  induction updates with
  | nil =>
    intro s hs
    exact ⟨hs, by simp⟩
  | cons u rest ih =>
    obtain ⟨ou, n⟩ := u
    intro s hs
    rw [List.foldl_cons]
    cases ou with
    | none =>
      have hp := addFlowStats_none s n
      have hinv : FlowTsInv (addFlowStats s none n) :=
        ⟨by rw [hp.2.1, hp.1]; exact hs.1,
          by rw [hp.2.2.1, hp.1]; exact hs.2.1,
          by rw [hp.2.2.2, hp.1]; exact hs.2.2⟩
      obtain ⟨h1, h2⟩ := ih (addFlowStats s none n) hinv
      refine ⟨h1, ?_⟩
      rw [h2, List.any_cons, hp.1]
      simp
    | some t0 =>
      have hp := addFlowStats_some s n t0
      have hinv : FlowTsInv (addFlowStats s (some t0) n) :=
        ⟨by rw [hp.2.1, hp.1], by rw [hp.2.2.1, hp.1],
          by rw [hp.2.2.2, hp.1]⟩
      obtain ⟨h1, h2⟩ := ih (addFlowStats s (some t0) n) hinv
      refine ⟨h1, ?_⟩
      rw [h2, List.any_cons, hp.1]
      simp

theorem buildFlowRateFields_gate (s : FlowStats) :
    ((buildFlowRateFields s).pps_peak_1s.isSome
        ↔ ∃ t0 t1, s.first_ts = some t0 ∧ s.last_ts = some t1
            ∧ ppsBpsWindowS ≤ qSub t1 t0)
  ∧ ((buildFlowRateFields s).bps_peak_1s.isSome
        ↔ ∃ t0 t1, s.first_ts = some t0 ∧ s.last_ts = some t1
            ∧ ppsBpsWindowS ≤ qSub t1 t0)
  ∧ (buildFlowRateFields s).pps = s.peak_pps
  ∧ (buildFlowRateFields s).bps = s.peak_bps := by
  refine ⟨?_, ?_, rfl, rfl⟩ <;>
  · rw [buildFlowRateFields]
    cases hf : s.first_ts with
    | none =>
      simp only
      constructor
      · intro hc; cases hc
      · rintro ⟨t0, t1, hc, -, -⟩; cases hc
    | some t0 =>
      cases hl : s.last_ts with
      | none =>
        simp only
        constructor
        · intro hc; cases hc
        · rintro ⟨t0', t1, -, hc, -⟩; cases hc
      | some t1 =>
        simp only
        by_cases hw : ppsBpsWindowS ≤ qSub t1 t0
        · rw [if_pos hw]
          exact ⟨fun _ => ⟨t0, t1, rfl, rfl, hw⟩, fun _ => rfl⟩
        · rw [if_neg hw]
          constructor
          · intro hc; cases hc
          · rintro ⟨t0', t1', ht0, ht1, hw'⟩
            cases ht0; cases ht1
            exact absurd hw' hw

/-- C9: the claim gates `pps`, `bps`, `pps_peak_1s` and `bps_peak_1s` all on
a flow span of at least 1 s; on a flow with a single packet at t = 0 (span
0 s) the summary still carries `pps = 1` and `bps = 4`, while only the
integer peak counts are absent. -/
theorem C9_counterexample :
    (buildFlowRateFields singlePacketFlow).pps = some 1
  ∧ (buildFlowRateFields singlePacketFlow).bps = some 4
  ∧ singlePacketFlow.first_ts = some 0
  ∧ singlePacketFlow.last_ts = some 0
  ∧ (buildFlowRateFields singlePacketFlow).pps_peak_1s = none
  ∧ (buildFlowRateFields singlePacketFlow).bps_peak_1s = none := by
  refine ⟨?_, ?_, ?_, ?_, ?_, ?_⟩ <;> decide

/-- C9 (amended): only the integer peak counts `pps_peak_1s`/`bps_peak_1s`
are gated on the flow spanning at least `PPS_BPS_WINDOW_S` (1 s); the peak
rates `pps`/`bps` are taken unconditionally from `peak_pps`/`peak_bps` and
are present exactly when some processed packet carried a timestamp. -/
theorem C9_rate_field_gating (updates : List (Option ℚ × Nat)) :
    ((buildFlowRateFields (runFlowUpdates updates)).pps_peak_1s.isSome
        ↔ ∃ t0 t1, (runFlowUpdates updates).first_ts = some t0
            ∧ (runFlowUpdates updates).last_ts = some t1
            ∧ ppsBpsWindowS ≤ qSub t1 t0)
  ∧ ((buildFlowRateFields (runFlowUpdates updates)).bps_peak_1s.isSome
        ↔ ∃ t0 t1, (runFlowUpdates updates).first_ts = some t0
            ∧ (runFlowUpdates updates).last_ts = some t1
            ∧ ppsBpsWindowS ≤ qSub t1 t0)
  ∧ ((buildFlowRateFields (runFlowUpdates updates)).pps.isSome
        = updates.any (fun u => u.1.isSome))
  ∧ ((buildFlowRateFields (runFlowUpdates updates)).bps.isSome
        = updates.any (fun u => u.1.isSome)) := by
  have h0 := runFlowUpdates_inv updates FlowStats.init ⟨rfl, rfl, rfl⟩
  have hinv : FlowTsInv (runFlowUpdates updates) := h0.1
  have hany : (runFlowUpdates updates).first_ts.isSome
      = (false || updates.any (fun u => u.1.isSome)) := h0.2
  rw [Bool.false_or] at hany
  obtain ⟨hg1, hg2, hg3, hg4⟩ := buildFlowRateFields_gate (runFlowUpdates updates)
  exact ⟨hg1, hg2, by rw [hg3, hinv.2.1, hany], by rw [hg4, hinv.2.2, hany]⟩

/-! ### C10: a payload never parses as both Art-Net and sACN -/

theorem bind_eq_ok {ε α β : Type} {x : Except ε α} {f : α → Except ε β} {b : β}
    (h : (x >>= f) = .ok b) : ∃ a, x = .ok a ∧ f a = .ok b := by
  cases x with
  | error e => rw [error_bind] at h; cases h
  | ok a => rw [ok_bind] at h; exact ⟨a, rfl, h⟩

theorem artdmxAccepts_true {p : List Nat} (h : artdmxAccepts p = true) :
    ∃ a, parseArtdmx p = .ok (some a) := by
  rw [artdmxAccepts] at h
  split at h
  · rename_i a heq
    exact ⟨a, heq⟩
  · cases h

theorem sacnAccepts_true {p : List Nat} (h : sacnAccepts p = true) :
    ∃ s, parseSacnDmx p = .ok (some s) := by
  rw [sacnAccepts] at h
  split at h
  · rename_i s heq
    exact ⟨s, heq⟩
  · cases h

theorem parseArtdmx_head {p : List Nat} {a : ArtDmx}
    (h : parseArtdmx p = .ok (some a)) : byteAt p 0 = 65 := by
  rw [parseArtdmx] at h
  obtain ⟨u1, hreq, h⟩ := bind_eq_ok h
  obtain ⟨sig, hsig, h⟩ := bind_eq_ok h
  by_cases hne : sig ≠ artnetId
  · rw [if_pos hne] at h
    cases h
  · have hsig' : sig = artnetId := not_not.1 hne
    rw [ArtNetReader.readSlice] at hsig
    split at hsig
    · have htake : (p.drop 0).take (8 - 0) = sig := Except.ok.inj hsig
      rw [List.drop_zero] at htake
      rw [hsig'] at htake
      have h0 : p[0]? = some 65 := by
        have h1 : (p.take (8 - 0))[0]? = if 0 < 8 - 0 then p[0]? else none :=
          List.getElem?_take
        rw [htake, if_pos (by decide)] at h1
        exact h1.symm
      rw [byteAt, List.getD_eq_getElem?_getD, h0]
      rfl
    · cases hsig

theorem parseSacnDmx_head {p : List Nat} {s : SacnDmx}
    (h : parseSacnDmx p = .ok (some s)) : byteAt p 0 = 0 := by
  rw [parseSacnDmx] at h
  obtain ⟨u1, hreq, h⟩ := bind_eq_ok h
  have hlen : 118 ≤ p.length := by
    rw [SacnReader.requireLen] at hreq
    split at hreq
    · cases hreq
    · omega
  obtain ⟨preamble, hpre, h⟩ := bind_eq_ok h
  obtain ⟨postamble, hpost, h⟩ := bind_eq_ok h
  by_cases hne : preamble ≠ 16 ∨ postamble ≠ 0
  · rw [if_pos hne] at h
    cases h
  · have hpre16 : preamble = 16 := not_not.1 (fun hc => hne (Or.inl hc))
    have hpre' : SacnReader.readU16be p 0 2 = .ok (be16 p 0) :=
      sacn_readU16be_ok p 0 (by omega)
    rw [hpre'] at hpre
    have hval : be16 p 0 = 16 := by
      rw [← hpre16]
      exact Except.ok.inj hpre
    rw [be16] at hval
    omega

/-- C10: no UDP payload is accepted by both decoders: an accepted ArtDMX
payload starts with the byte 0x41 of `"Art-Net\\0"` while an accepted sACN
payload starts with the byte 0x00 of the preamble size `0x0010`, so no
packet is ever counted in both an `artnet` and a `sacn` universe
aggregate. -/
theorem C10_protocol_exclusivity (p : List Nat) :
    (artdmxAccepts p && sacnAccepts p) = false := by
  cases h1 : artdmxAccepts p with
  | false => rfl
  | true =>
    cases h2 : sacnAccepts p with
    | false => rfl
    | true =>
      exfalso
      obtain ⟨a, ha⟩ := artdmxAccepts_true h1
      obtain ⟨s, hs⟩ := sacnAccepts_true h2
      have hart := parseArtdmx_head ha
      have hsacn := parseSacnDmx_head hs
      rw [hart] at hsacn
      cases hsacn
